import Mathlib

/-!
Shallow embedding of the OptiRoute route sequencing and optimization engine
(`src/components/hooks/useRouteCalculation.ts` and the parsing layer of
`src/components/routeUtils.ts`), together with proofs settling the frozen
claims about it.

Modelling conventions:
* JavaScript numbers are modelled as real numbers (`ℝ`); `Math.sin`,
  `Math.cos`, `Math.sqrt`, `Math.atan2` become the corresponding real
  functions (`Real.sin`, …, and `Complex.arg` for `atan2`).
* A coordinate pair `[lon, lat]` becomes `Point := ℝ × ℝ` with `.1 = lon`,
  `.2 = lat`, exactly as the source arrays are indexed.
* Network collaborators (geocoder, OSRM trip endpoint, OSRM per-leg route
  endpoint) are oracles passed in as function arguments; a `none`/`Except.error`
  result models a thrown error or transport failure.  The trip and segment
  oracles are keyed by the requested travel profile so that the source's
  hard-coded `"driving"` profile is visible in the embedding.
* `async`/`await` sequencing is pure sequential evaluation; `try`/`catch`
  becomes matching on `Except`/`Option`.
* The source's early returns with a toast (missing location, no destinations)
  and the `catch` branch of `calculateMultiPointRoute` become the
  constructors of `RouteOutcome`.  The `usedGreedy` flag of
  `RouteOutcome.success` records the source's `useGreedyInsertion` variable,
  which is user-visible through the strategy toast at the end of the hook.
* The source's `useNearestNeighbor` variable is constantly `false`
  (dead branch), so that branch is not reachable and is omitted from
  `runCore`; `calculateNearestNeighborOrder` itself is embedded in full.
* Map rendering (leaflet markers, polylines) and the global
  `__lastRouteDurationsByMode` display cache have no observable effect on the
  returned `RouteData` and are omitted.
-/

namespace OptiRoute

/-- JavaScript `String.prototype.trim()`: strip leading and trailing
whitespace.  Implemented structurally over the character list so that
concrete runs reduce inside the kernel. -/
def jsTrim (s : String) : String :=
  String.mk (((s.data.dropWhile Char.isWhitespace).reverse.dropWhile
    Char.isWhitespace).reverse)

/-- Geographic point as the source stores it: `(longitude, latitude)`. -/
abbrev Point := ℝ × ℝ

/-- Travel mode (`transportMode` in the source). -/
inductive Mode where
  | walking
  | cycling
  | driving
deriving DecidableEq

/-- User-entered stop (`Waypoint` in `routeUtils.ts`).  The optional `name`
is modelled as a `String`, with `""` for an absent name: every use in the
source guards the name with JavaScript truthiness together with
`.trim() !== ""`, and both checks collapse to `name.trim ≠ ""`. -/
structure Waypoint where
  id : String
  address : String
  name : String
  coordinates : Option Point
  visited : Bool
  isEndPoint : Bool

/-- Caller's current location (`currentLocation`). `address` uses `""` for
an absent address, matching the `currentLocation.address || "Your Location"`
truthiness check. -/
structure CurrentLocation where
  latitude : ℝ
  longitude : ℝ
  address : String

/-- Entry of the working arrays `{ coords, waypoint }` used by the trip
client, the heuristics and the stitching loop.  `waypoint = none` models the
source's literal `waypoint: null` dummy entries that seed the greedy
insertion skeleton. -/
structure Leg where
  coords : Point
  waypoint : Option Waypoint

/-- Default leg used to totalize indexing that the source performs on
positions it has already checked (`toInsert[bestIdx]`, `route[pos]`). -/
def dummyLeg : Leg := ⟨(0, 0), none⟩

/-- Annotated output waypoint (`LocationData` in `routeUtils.ts`). -/
structure LocationData where
  latitude : ℝ
  longitude : ℝ
  address : String
  name : String
  id : String
  displayNumber : ℕ

/-- Engine output (`RouteData` in `routeUtils.ts`): what the hook passes to
`setRouteData`. -/
structure RouteData where
  distance : ℝ
  duration : ℝ
  coordinates : List (ℝ × ℝ)
  waypoints : List LocationData

/-- Result of one invocation of `calculateMultiPointRoute`.
`missingInfo` and `noDestinations` are the two early returns with a
destructive toast; `failure msg` is the `catch` branch with the thrown
error's message; `success usedGreedy r` is the `setRouteData` call, with
`usedGreedy` recording the source's `useGreedyInsertion` flag (surfaced to
the user by the closing strategy toast). -/
inductive RouteOutcome where
  | missingInfo
  | noDestinations
  | failure (msg : String)
  | success (usedGreedy : Bool) (result : RouteData)

/-- One trip of the OSRM trip response (`data.trips[0]` fields used by the
source).  `geometry = none` models a missing or malformed
`geometry.coordinates`; the list holds provider-order `(lon, lat)` pairs. -/
structure OSRMTrip where
  geometry : Option (List Point)
  distance : ℝ
  duration : ℝ
  waypoint_order : Option (List ℕ)

/-- Raw body of an OSRM trip response (`data.trips`). -/
structure OSRMTripData where
  trips : List OSRMTrip

/-- Parsed result of `fetchOSRMTripRoute` (its return object). -/
structure TripFetchResult where
  geometry : List (ℝ × ℝ)
  distance : ℝ
  duration : ℝ
  waypoint_order : Option (List ℕ)
  reordered : List Leg

/-- Parsed result of a per-leg `fetchOSRMRoute` call as the stitching loop
consumes it: geometry already swapped to `(lat, lon)`, plus distance and
duration.  An `Option SegRoute` oracle result of `none` models both a
"no road route found" rejection and a transport error, which the source's
`catch (segErr)` treats identically. -/
structure SegRoute where
  geometry : List (ℝ × ℝ)
  distance : ℝ
  duration : ℝ

/-- Degrees to radians, `toRad` inside `haversine`. -/
noncomputable def toRad (x : ℝ) : ℝ := x * Real.pi / 180

/-- JavaScript `Math.atan2 y x` on the closed upper-right quadrant the source
uses it in, via the complex argument function (both return the angle of the
point `(x, y)` in `(-π, π]`). -/
noncomputable def atan2 (y x : ℝ) : ℝ := Complex.arg ⟨x, y⟩

/-- Haversine great-circle distance in meters (`haversine` in the source),
taking `[lon, lat]` pairs. -/
noncomputable def haversine (p q : Point) : ℝ :=
  let dLat := toRad (q.2 - p.2)
  let dLon := toRad (q.1 - p.1)
  let a := Real.sin (dLat / 2) ^ 2 +
    Real.cos (toRad p.2) * Real.cos (toRad q.2) * Real.sin (dLon / 2) ^ 2
  6371000 * 2 * atan2 (Real.sqrt a) (Real.sqrt (1 - a))

/-- One step of the source's running-minimum scans: keep the incumbent
unless the new value is strictly smaller (both heuristics update their best
candidate with a strict `<`).  The state is `none` before any candidate has
been seen, modelling the `Infinity` / index `-1` initialisation. -/
noncomputable def stepMin {α : Type} (f : α → ℝ) (b : Option (α × ℝ)) (x : α) :
    Option (α × ℝ) :=
  match b with
  | none => some (x, f x)
  | some (y, v) => if f x < v then some (x, f x) else some (y, v)

/-- First strict minimum of `f` over a list, in scan order. -/
noncomputable def firstMin {α : Type} (f : α → ℝ) (l : List α) : Option (α × ℝ) :=
  l.foldl (stepMin f) none

/-- Cost of inserting candidate `c` at position `pos` of `route`
(`haversine(prev, stop) + haversine(stop, next) - haversine(prev, next)` in
`calculateGreedyInsertionOrder`). -/
noncomputable def insertionCost (route : List Leg) (c : Leg) (pos : ℕ) : ℝ :=
  let prev := (route.getD (pos - 1) dummyLeg).coords
  let next := (route.getD pos dummyLeg).coords
  haversine prev c.coords + haversine c.coords next - haversine prev next

/-- Enumeration order of the source's double loop `for i < candsLen`,
`for 1 ≤ pos < routeLen`: candidate index outermost, insertion position
innermost. -/
def pairsFor (routeLen candsLen : ℕ) : List (ℕ × ℕ) :=
  (List.range candsLen).flatMap fun i => (List.range' 1 (routeLen - 1)).map fun pos => (i, pos)

/-- Best `(candidate index, insertion position)` pair with its cost, as the
source's scan computes it: first strict minimum in the double-loop order. -/
noncomputable def bestTriple (route cands : List Leg) : Option ((ℕ × ℕ) × ℝ) :=
  firstMin (fun ip => insertionCost route (cands.getD ip.1 dummyLeg) ip.2)
    (pairsFor route.length cands.length)

/-- Greedy-insertion main loop (`while (toInsert.length)`), with explicit
fuel equal to the number of candidates still to insert; each iteration
splices the best candidate into the route and removes it from the pool. -/
noncomputable def greedyLoop : ℕ → List Leg → List Leg → List Leg
  | 0, _, route => route
  | n + 1, toInsert, route =>
    match bestTriple route toInsert with
    | none => route
    | some (ip, _) =>
      greedyLoop n (toInsert.eraseIdx ip.1)
        (route.insertIdx ip.2 (toInsert.getD ip.1 dummyLeg))

/-- Removal of the synthetic skeleton entries after the insertion loop
(`if (route[0].waypoint === null) route.shift(); if (… last … === null)
route.pop();`). -/
def stripDummies : List Leg → List Leg
  | [] => []
  | x :: rest =>
    let r1 := if x.waypoint.isNone then rest else x :: rest
    match r1.getLast? with
    | some y => if y.waypoint.isNone then r1.dropLast else r1
    | none => r1

/-- Greedy insertion heuristic (`calculateGreedyInsertionOrder`).  Seeds a
skeleton of `[start-dummy, endpoint]` when the optional end coordinates
match a waypoint (by exact coordinate equality, as `===` in the source), or
a closed loop `[start-dummy, start-dummy]` otherwise, inserts every
remaining waypoint at the cheapest position, then strips a leading and a
trailing dummy entry. -/
noncomputable def calculateGreedyInsertionOrder (start : Point)
    (waypoints : List Leg) (endCoords : Option Point) : List Leg :=
  if waypoints.isEmpty then [] else
  let dummy : Leg := ⟨start, none⟩
  let seeded : List Leg × List Leg :=
    match endCoords with
    | some e =>
      let endIdx := waypoints.findIdx fun wp => decide (wp.coords = e)
      if endIdx < waypoints.length then
        (waypoints.eraseIdx endIdx, [dummy, waypoints.getD endIdx dummyLeg])
      else (waypoints, [dummy, dummy])
    | none => (waypoints, [dummy, dummy])
  stripDummies (greedyLoop seeded.1.length seeded.1 seeded.2)

/-- Selection step of `calculateNearestNeighborOrder`: index and entry of
the remaining leg closest to `cur`, earliest index winning ties (the
source's scan initialises with index 0 and only updates on a strict `<`). -/
noncomputable def nnSelect (cur : Point) (l : List Leg) : Option (ℕ × Leg) :=
  (firstMin (fun p => haversine cur p.2.coords) l.enum).map (·.1)

/-- Nearest-neighbor main loop (`while (remaining.length > 0)`), with fuel
equal to the number of remaining legs. -/
noncomputable def nnLoop : ℕ → Point → List Leg → List Leg
  | 0, _, _ => []
  | n + 1, cur, remaining =>
    match nnSelect cur remaining with
    | none => []
    | some (i, x) => x :: nnLoop n x.coords (remaining.eraseIdx i)

/-- Nearest-neighbor heuristic (`calculateNearestNeighborOrder`).  If end
coordinates are given and match a waypoint, that waypoint is removed up
front and appended after all others. -/
noncomputable def calculateNearestNeighborOrder (start : Point)
    (waypoints : List Leg) (endCoords : Option Point) : List Leg :=
  let pulled : Option Leg × List Leg :=
    match endCoords with
    | some e =>
      let idx := waypoints.findIdx fun wp => decide (wp.coords = e)
      if idx < waypoints.length then (waypoints.get? idx, waypoints.eraseIdx idx)
      else (none, waypoints)
    | none => (none, waypoints)
  nnLoop pulled.2.length start pulled.2 ++ pulled.1.toList

/-- Per-leg stitching loop of the heuristic fallback (the `for` loop over
`reordered` with its `try`/`catch`).  State is `(allCoords, totalDist,
totalDur)`.  On a successful segment fetch the leg geometry is appended,
dropping its first point whenever the accumulated path is nonempty and the
leg geometry has more than one point; on a failed fetch the leg end point
`[lat, lon]` is appended and haversine distance plus a 13 m/s duration
estimate are accrued. -/
noncomputable def stitchLegs (seg : Point → Point → Option SegRoute) :
    Point → List Leg → List (ℝ × ℝ) × ℝ × ℝ → List (ℝ × ℝ) × ℝ × ℝ
  | _, [], acc => acc
  | prev, l :: rest, (cs, d, t) =>
    match seg prev l.coords with
    | some r =>
      let cs2 := if cs.length > 0 ∧ r.geometry.length > 1
        then cs ++ r.geometry.drop 1 else cs ++ r.geometry
      stitchLegs seg l.coords rest (cs2, d + r.distance, t + r.duration)
    | none =>
      stitchLegs seg l.coords rest
        (cs ++ [(l.coords.2, l.coords.1)],
         d + haversine prev l.coords,
         t + haversine prev l.coords / 13)

/-- Reordering step of `fetchOSRMTripRoute`: `order.map(idx => …)` with the
out-of-range throw. -/
def pickDestinations (destinations : List Leg) : List ℕ → Except String (List Leg)
  | [] => .ok []
  | idx :: rest =>
    match destinations.get? idx with
    | none => .error ("Fallback: Waypoint order index " ++ toString idx ++
        " is out of range for destinations.")
    | some d =>
      match pickDestinations destinations rest with
      | .error e => .error e
      | .ok ds => .ok (d :: ds)

/-- Trip client (`fetchOSRMTripRoute`), applied to the raw response body;
`resp = none` models a transport failure of the single `fetch`.  The parse
requires a first trip and well-formed geometry; a missing or wrong-length
`waypoint_order` silently falls back to the identity order over the
destinations, and any in-range order array is accepted as-is. -/
def fetchOSRMTripRoute (resp : Option OSRMTripData) (destinations : List Leg) :
    Except String TripFetchResult :=
  match resp with
  | none => .error "trip request failed"
  | some data =>
    match data.trips.head? with
    | none => .error
        "Could not find an optimal trip for these destinations (possibly unreachable by selected mode)."
    | some trip =>
      match trip.geometry with
      | none => .error "Route data malformed: missing geometry."
      | some coords =>
        let build : Except String (List Leg) :=
          if destinations.length = 0 then .ok []
          else
            let order := match trip.waypoint_order with
              | some wo =>
                if wo.length = destinations.length then wo
                else List.range destinations.length
              | none => List.range destinations.length
            pickDestinations destinations order
        match build with
        | .error e => .error e
        | .ok reordered =>
          .ok { geometry := coords.map fun p => (p.2, p.1)
                distance := trip.distance
                duration := trip.duration
                waypoint_order := trip.waypoint_order
                reordered := reordered }

/-- Filter of the input stops (`availableWaypoints`): drop visited stops and
stops with a blank address. -/
def availableOf (waypoints : List Waypoint) : List Waypoint :=
  waypoints.filter fun wp => !wp.visited && jsTrim wp.address != ""

/-- Endpoint partition (`endWaypointIndex` / `endWaypoint` /
`intermediateWaypoints`): the first stop flagged `isEndPoint`, if any, and
the remaining stops.  `List.findIdx` returns the length when nothing
matches, in which case `get?` is `none` and `eraseIdx` keeps the list
intact, matching the source's `-1` branch. -/
def partitionEndpoint (available : List Waypoint) :
    Option Waypoint × List Waypoint :=
  let endIdx := available.findIdx (·.isEndPoint)
  (available.get? endIdx, available.eraseIdx endIdx)

/-- Sequential geocoding of the intermediate stops (the `for…of` loop), in
list order, failing on the first stop the geocoder cannot resolve and
attaching the resolved coordinates (`{ ...waypoint, coordinates }`)
otherwise. -/
def geocodeList (geo : String → Option Point) :
    List Waypoint → Except String (List (Waypoint × Point))
  | [] => .ok []
  | w :: rest =>
    match geo w.address with
    | none => .error ("Destination \"" ++ w.address ++ "\" not found")
    | some c =>
      match geocodeList geo rest with
      | .error e => .error e
      | .ok gs => .ok (({ w with coordinates := some c }, c) :: gs)

/-- Geocoding of the optional end stop, after all intermediates. -/
def geocodeEnd (geo : String → Option Point) :
    Option Waypoint → Except String (Option (Waypoint × Point))
  | none => .ok none
  | some ew =>
    match geo ew.address with
    | none => .error ("End destination \"" ++ ew.address ++ "\" not found")
    | some c => .ok (some ({ ew with coordinates := some c }, c))

/-- Geocoded intermediates as trip-client legs (`intermediate = …map`). -/
def toLegs (gis : List (Waypoint × Point)) : List Leg :=
  gis.map fun gw => ⟨gw.2, some gw.1⟩

/-- Ordering-rejection test on an accepted trip
(`!tripResp.waypoint_order || tripResp.waypoint_order.length !==
intermediate.length`). -/
def orderingRejected (t : TripFetchResult) (n : ℕ) : Bool :=
  match t.waypoint_order with
  | none => true
  | some wo => wo.length != n

/-- Output waypoint assembly (`greedyWaypoints`): the start location at
`displayNumber 0` followed by the reordered legs at consecutive numbers;
the entry at the last index inherits the end stop's address/name/id when an
end stop exists and the corresponding field is non-blank.  A `none` leg
waypoint (impossible for the lists this is applied to) falls back to
`dummyLeg`'s empty waypoint data. -/
def buildWaypoints (cur : CurrentLocation) (endW : Option Waypoint)
    (reordered : List Leg) : List LocationData :=
  { latitude := cur.latitude
    longitude := cur.longitude
    address := if cur.address != "" then cur.address else "Your Location"
    name := "Your Location"
    id := "start"
    displayNumber := 0 } ::
  reordered.enum.map fun iw =>
    let w := iw.2.waypoint.getD ⟨"", "", "", none, false, false⟩
    let esUltimo := iw.1 = reordered.length - 1 ∧ endW.isSome
    let e := endW.getD w
    { latitude := iw.2.coords.2
      longitude := iw.2.coords.1
      address := if esUltimo ∧ jsTrim e.address != "" then e.address else w.address
      name := if esUltimo ∧ jsTrim e.name != "" then e.name else w.name
      id := if esUltimo ∧ e.id != "" then e.id else w.id
      displayNumber := iw.1 + 1 }

/-- Endpoint extension of the fallback insertion input
(`insertionInput.push({ coords: endCoords, waypoint: geocodedEnd })`). -/
def endLegs : Option (Waypoint × Point) → List Leg
  | some ec => [⟨ec.2, some ec.1⟩]
  | none => []

/-- Core of `calculateMultiPointRoute` up to, but not including, the
travel-mode duration compensation: validation, endpoint partition,
sequential geocoding, the single trip-client attempt with profile
`driving`, the greedy-insertion fallback with per-leg stitching (also with
profile `driving`), and waypoint assembly.  The returned duration is the
raw aggregated driving duration (`totalDur`). -/
noncomputable def runCore (loc : Option CurrentLocation)
    (waypoints : List Waypoint) (geo : String → Option Point)
    (trip : Mode → Option OSRMTripData)
    (seg : Mode → Point → Point → Option SegRoute) : RouteOutcome :=
  match loc with
  | none => .missingInfo
  | some cur =>
    let available := availableOf waypoints
    if available.isEmpty then .noDestinations
    else
      let part := partitionEndpoint available
      match geocodeList geo part.2 with
      | .error msg => .failure msg
      | .ok gis =>
        match geocodeEnd geo part.1 with
        | .error msg => .failure msg
        | .ok endPair =>
          let startCoords : Point := (cur.longitude, cur.latitude)
          let intermediate := toLegs gis
          if intermediate.isEmpty && endPair.isNone then
            .failure "No valid destinations to route to."
          else
            let endCoords := endPair.map (·.2)
            let greedyBranch : RouteOutcome :=
              let insertionInput := intermediate ++ endLegs endPair
              let reordered :=
                calculateGreedyInsertionOrder startCoords insertionInput endCoords
              let st := stitchLegs (seg .driving) startCoords reordered ([], 0, 0)
              .success true
                { distance := st.2.1
                  duration := st.2.2
                  coordinates := st.1
                  waypoints := buildWaypoints cur part.1 reordered }
            match fetchOSRMTripRoute (trip .driving) intermediate with
            | .error _ => greedyBranch
            | .ok t =>
              if intermediate.length > 1 && orderingRejected t intermediate.length then
                greedyBranch
              else
                .success false
                  { distance := t.distance
                    duration := t.duration
                    coordinates := t.geometry
                    waypoints := buildWaypoints cur part.1 t.reordered }

/-- Travel-mode duration compensation (`shownDuration`), applied to the
aggregate driving duration after either branch. -/
def applyModeFactor (mode : Mode) (d : ℝ) : ℝ :=
  match mode with
  | .walking => d * 3
  | .cycling => d * 1.5
  | .driving => d

/-- Full engine invocation (`calculateMultiPointRoute`): the core run
followed by the single post-aggregation duration compensation. -/
noncomputable def calculateMultiPointRoute (transportMode : Mode)
    (loc : Option CurrentLocation) (waypoints : List Waypoint)
    (geo : String → Option Point) (trip : Mode → Option OSRMTripData)
    (seg : Mode → Point → Point → Option SegRoute) : RouteOutcome :=
  match runCore loc waypoints geo trip seg with
  | .success g rd => .success g { rd with duration := applyModeFactor transportMode rd.duration }
  | o => o

/-! ### Specification-side helper definitions

These definitions follow the wording of the specification (not the source)
and exist only to state the claims; theorems compare them with the
source-derived definitions above. -/

/-- Sum of consecutive haversine distances along a path of legs, starting at
`prev`; the specification's total for an all-fallback stitched route. -/
noncomputable def pathHav : Point → List Leg → ℝ
  | _, [] => 0
  | prev, l :: rest => haversine prev l.coords + pathHav l.coords rest

/-- Mode compensation factor as the specification states it: walking 3.0,
cycling 1.5, driving unchanged. -/
def modeFactor : Mode → ℝ
  | .walking => 3
  | .cycling => 1.5
  | .driving => 1

/-- Scaling of only the success duration of an outcome by a factor; used to
state that the whole pipeline's mode dependence is exactly one
post-aggregation multiplication. -/
def scaleDuration (f : ℝ) : RouteOutcome → RouteOutcome
  | .success g rd => .success g { rd with duration := f * rd.duration }
  | o => o

/-- Great-circle distance between consecutive integer latitudes on the
prime meridian; the distance unit of the worked examples. -/
noncomputable def unitDist : ℝ := 6371000 * (Real.pi / 180)

/-! ### Concrete inputs for the worked examples and counterexamples -/

/-- Current location used by the concrete runs: `(lat 0, lon 0)`,
labelled "Home". -/
def locHome : CurrentLocation := ⟨0, 0, "Home"⟩

/-- Segment oracle that always fails (every per-leg request throws). -/
def failSeg : Point → Point → Option SegRoute := fun _ _ => none

/-- Segment oracle family (keyed by mode) that always fails. -/
def segNone : Mode → Point → Point → Option SegRoute := fun _ _ _ => none

/-- Single end-flagged stop for the C1 run. -/
def wpEnd1 : Waypoint := ⟨"e1", "End St", "Endy", none, false, true⟩

/-- Geocoder resolving every address to `(5, 6)`. -/
def geoConst : String → Option Point := fun _ => some (5, 6)

/-- Trip response for the C1 run: one trip, empty geometry, 1000 m, 600 s,
no ordering array. -/
def tripC1 : Mode → Option OSRMTripData :=
  fun _ => some ⟨[⟨some [], 1000, 600, none⟩]⟩

/-- Intermediate stop for the C2 run. -/
def wpI2 : Waypoint := ⟨"i1", "A", "", none, false, false⟩

/-- End-flagged stop for the C2 run. -/
def wpE2 : Waypoint := ⟨"e2", "B", "End", none, false, true⟩

/-- Geocoder for the C2 run: "A" at `(0, 1)`, anything else at `(0, 2)`. -/
def geoC2 : String → Option Point :=
  fun a => if a = "A" then some (0, 1) else some (0, 2)

/-- Trip response for the C2 run: accepted ordering `[0]` over the single
intermediate leg. -/
def tripC2 : Mode → Option OSRMTripData :=
  fun _ => some ⟨[⟨some [], 100, 600, some [0]⟩]⟩

/-- First end-flagged stop for the C3 run. -/
def wpEa : Waypoint := ⟨"ea", "X1", "", none, false, true⟩

/-- Second end-flagged stop for the C3 run. -/
def wpEb : Waypoint := ⟨"eb", "X2", "", none, false, true⟩

/-- Geocoder for the C3 run. -/
def geoC3 : String → Option Point :=
  fun a => if a = "X1" then some (3, 3) else some (4, 4)

/-- Trip response for the C3 run: accepted ordering `[0]`. -/
def tripC3 : Mode → Option OSRMTripData :=
  fun _ => some ⟨[⟨some [], 7, 8, some [0]⟩]⟩

/-- Single (non-end) stop for the C4 run. -/
def wpI4 : Waypoint := ⟨"i4", "C", "", none, false, false⟩

/-- Geocoder for the C4 run. -/
def geoC4 : String → Option Point := fun _ => some (1, 1)

/-- Trip response for the C4 run: one trip with geometry but NO ordering
array (`waypoint_order` missing). -/
def tripC4 : Mode → Option OSRMTripData :=
  fun _ => some ⟨[⟨some [(10, 20)], 50, 60, none⟩]⟩

/-- Single stop for the C5 walking-mode run. -/
def wpI5 : Waypoint := ⟨"i5", "D", "", none, false, false⟩

/-- Geocoder for the C5 run. -/
def geoC5 : String → Option Point := fun _ => some (2, 2)

/-- Trip response for the C5 run: driving duration 600 s. -/
def tripC5 : Mode → Option OSRMTripData :=
  fun _ => some ⟨[⟨some [], 100, 600, some [0]⟩]⟩

/-- End-flagged stop (first in input order) for the C6 run. -/
def wpE6 : Waypoint := ⟨"e6", "X", "", none, false, true⟩

/-- Intermediate stop (second in input order) for the C6 run. -/
def wpI6 : Waypoint := ⟨"i6", "Y", "", none, false, false⟩

/-- Geocoder that resolves nothing. -/
def geoNone : String → Option Point := fun _ => none

/-- Stop A of the worked heuristic examples. -/
def wpA : Waypoint := ⟨"A", "A", "", none, false, false⟩

/-- Stop B of the worked heuristic examples. -/
def wpB : Waypoint := ⟨"B", "B", "", none, false, false⟩

/-- Example 1 leg A at `(0, 1)`. -/
def legA1 : Leg := ⟨(0, 1), some wpA⟩

/-- Example 1 leg B at `(0, 2)`. -/
def legB1 : Leg := ⟨(0, 2), some wpB⟩

/-- Example 2 leg A at `(0, 2)`. -/
def legA2 : Leg := ⟨(0, 2), some wpA⟩

/-- Example 2 leg B at `(0, 1)`. -/
def legB2 : Leg := ⟨(0, 1), some wpB⟩

/-- First stitched leg for the C10 counterexample. -/
def legS1 : Leg := ⟨(1, 2), none⟩

/-- Second stitched leg for the C10 counterexample. -/
def legS2 : Leg := ⟨(3, 4), none⟩

/-- Segment oracle for the C10 counterexample: the leg ending at `(1, 2)`
gets the path `[(0,0), (1,1)]`, every other leg gets `[(5,5), (2,2)]` —
whose first point differs from the previous leg's last point `(1,1)`. -/
noncomputable def segC10 : Point → Point → Option SegRoute :=
  fun _ b => if b = ((1 : ℝ), (2 : ℝ)) then some ⟨[(0, 0), (1, 1)], 1, 1⟩
    else some ⟨[(5, 5), (2, 2)], 1, 1⟩

/-- First stop of the two-stop fallback run used to witness the amended C4. -/
def wpF1 : Waypoint := ⟨"f1", "F1", "", none, false, false⟩

/-- Second stop of the two-stop fallback run. -/
def wpF2 : Waypoint := ⟨"f2", "F2", "", none, false, false⟩

/-- Geocoder for the two-stop fallback run. -/
def geoF : String → Option Point :=
  fun a => if a = "F1" then some (0, 1) else some (0, 2)

/-- Trip response for the two-stop fallback run: a trip is returned, but its
ordering array is missing, and two intermediate legs were requested. -/
def tripF : Mode → Option OSRMTripData :=
  fun _ => some ⟨[⟨some [], 30, 40, none⟩]⟩

/-! ### Generic lemmas about the running-minimum scans -/

theorem scanMin_correct {α : Type} (f : α → ℝ) :
    ∀ (l : List α) (y : α),
      ∃ z l₁ l₂, l.foldl (stepMin f) (some (y, f y)) = some (z, f z) ∧
        y :: l = l₁ ++ z :: l₂ ∧ (∀ e ∈ l₁, f z < f e) ∧ ∀ e ∈ y :: l, f z ≤ f e := by
  intro l
  induction l with
  | nil =>
    intro y
    exact ⟨y, [], [], rfl, rfl, by simp, by simp⟩
  | cons x xs ih =>
    intro y
    by_cases h : f x < f y
    · obtain ⟨z, l₁, l₂, hfold, hdec, hfront, hmin⟩ := ih x
      refine ⟨z, y :: l₁, l₂, ?_, ?_, ?_, ?_⟩
      · rw [List.foldl_cons, show stepMin f (some (y, f y)) x = some (x, f x) by
          simp [stepMin, h]]
        exact hfold
      · rw [List.cons_append, ← hdec]
      · intro e he
        rcases List.mem_cons.1 he with rfl | he2
        · exact lt_of_le_of_lt (hmin x (by simp)) h
        · exact hfront e he2
      · intro e he
        rcases List.mem_cons.1 he with rfl | he2
        · exact le_of_lt (lt_of_le_of_lt (hmin x (by simp)) h)
        · exact hmin e he2
    · obtain ⟨z, l₁, l₂, hfold, hdec, hfront, hmin⟩ := ih y
      have hstep : (x :: xs).foldl (stepMin f) (some (y, f y)) =
          xs.foldl (stepMin f) (some (y, f y)) := by
        rw [List.foldl_cons]
        congr 1
        simp [stepMin, h]
      cases l₁ with
      | nil =>
        obtain ⟨h1, h2⟩ : y = z ∧ xs = l₂ := by simpa using hdec
        subst h1
        refine ⟨y, [], x :: xs, ?_, by simp, by simp, ?_⟩
        · rw [hstep]; exact hfold
        · intro e he
          rcases List.mem_cons.1 he with rfl | he2
          · exact le_refl _
          · rcases List.mem_cons.1 he2 with rfl | he3
            · exact not_lt.1 h
            · exact hmin e (by simp [he3])
      | cons a l₁t =>
        have hdec2 := hdec
        rw [List.cons_append] at hdec2
        injection hdec2 with h1 h2
        have hzy : f z < f y := by rw [h1]; exact hfront a (by simp)
        refine ⟨z, y :: x :: l₁t, l₂, ?_, ?_, ?_, ?_⟩
        · rw [hstep]; exact hfold
        · rw [List.cons_append, List.cons_append, h2]
        · intro e he
          rcases List.mem_cons.1 he with rfl | he2
          · exact hzy
          · rcases List.mem_cons.1 he2 with rfl | he3
            · exact lt_of_lt_of_le hzy (not_lt.1 h)
            · exact hfront e (List.mem_cons_of_mem a he3)
        · intro e he
          rcases List.mem_cons.1 he with rfl | he2
          · exact hmin e (by simp)
          · rcases List.mem_cons.1 he2 with rfl | he3
            · exact le_trans (hmin y (by simp)) (not_lt.1 h)
            · exact hmin e (by simp [he3])

theorem firstMin_cons {α : Type} (f : α → ℝ) (y : α) (l : List α) :
    firstMin f (y :: l) = l.foldl (stepMin f) (some (y, f y)) := rfl

theorem firstMin_correct {α : Type} (f : α → ℝ) (y : α) (l : List α) :
    ∃ z l₁ l₂, firstMin f (y :: l) = some (z, f z) ∧
      y :: l = l₁ ++ z :: l₂ ∧ (∀ e ∈ l₁, f z < f e) ∧ ∀ e ∈ y :: l, f z ≤ f e := by
  rw [firstMin_cons]
  exact scanMin_correct f l y

theorem firstMin_eq_some {α : Type} {f : α → ℝ} {l : List α} {z : α} {v : ℝ}
    (h : firstMin f l = some (z, v)) :
    v = f z ∧ (∀ e ∈ l, f z ≤ f e) ∧
      ∃ l₁ l₂, l = l₁ ++ z :: l₂ ∧ ∀ e ∈ l₁, f z < f e := by
  cases l with
  | nil => exact absurd h (by simp [firstMin])
  | cons y t =>
    obtain ⟨z2, l₁, l₂, hfm, hdec, hfront, hmin⟩ := firstMin_correct f y t
    rw [hfm] at h
    have h2 := Option.some.inj h
    have hz : z2 = z := congrArg Prod.fst h2
    have hv : f z2 = v := congrArg Prod.snd h2
    subst hz
    exact ⟨hv.symm, hmin, l₁, l₂, hdec, hfront⟩

theorem mem_pairsFor {rl cl : ℕ} {jq : ℕ × ℕ} :
    jq ∈ pairsFor rl cl ↔ jq.1 < cl ∧ 1 ≤ jq.2 ∧ jq.2 < rl := by
  unfold pairsFor
  constructor
  · intro h
    obtain ⟨i, hi, h2⟩ := List.mem_flatMap.1 h
    obtain ⟨q, hq, hjq⟩ := List.mem_map.1 h2
    obtain ⟨hq1, hq2⟩ := List.mem_range'_1.1 hq
    subst hjq
    exact ⟨List.mem_range.1 hi, hq1, by omega⟩
  · rintro ⟨h1, h2, h3⟩
    exact List.mem_flatMap.2 ⟨jq.1, List.mem_range.2 h1,
      List.mem_map.2 ⟨jq.2, List.mem_range'_1.2 ⟨h2, by omega⟩, by simp⟩⟩

theorem pairsFor_pairwise (rl cl : ℕ) :
    (pairsFor rl cl).Pairwise
      (fun a b : ℕ × ℕ => a.1 < b.1 ∨ (a.1 = b.1 ∧ a.2 < b.2)) := by
  unfold pairsFor
  have aux : ∀ is : List ℕ, is.Pairwise (· < ·) →
      (is.flatMap fun i => (List.range' 1 (rl - 1)).map fun pos => (i, pos)).Pairwise
        (fun a b : ℕ × ℕ => a.1 < b.1 ∨ (a.1 = b.1 ∧ a.2 < b.2)) := by
    intro is
    induction is with
    | nil => intro _; simp
    | cons i rest ih =>
      intro hp
      rw [List.flatMap_cons, List.pairwise_append]
      obtain ⟨hhead, htail⟩ := List.pairwise_cons.1 hp
      refine ⟨?_, ih htail, ?_⟩
      · exact List.Pairwise.map _ (fun a b hab => Or.inr ⟨rfl, hab⟩)
          (List.pairwise_lt_range' 1 (rl - 1))
      · intro a ha b hb
        obtain ⟨qa, _, hqa⟩ := List.mem_map.1 ha
        obtain ⟨j, hj, hb2⟩ := List.mem_flatMap.1 hb
        obtain ⟨qb, _, hqb⟩ := List.mem_map.1 hb2
        subst hqa; subst hqb
        exact Or.inl (hhead j hj)
  exact aux _ (List.pairwise_lt_range cl)

theorem bestTriple_spec {route cands : List Leg} {i pos : ℕ} {v : ℝ}
    (h : bestTriple route cands = some ((i, pos), v)) :
    i < cands.length ∧ 1 ≤ pos ∧ pos < route.length ∧
    v = insertionCost route (cands.getD i dummyLeg) pos ∧
    (∀ j q, j < cands.length → 1 ≤ q → q < route.length →
      v ≤ insertionCost route (cands.getD j dummyLeg) q) ∧
    ∀ j q, j < cands.length → 1 ≤ q → q < route.length →
      insertionCost route (cands.getD j dummyLeg) q = v →
      i < j ∨ (i = j ∧ pos ≤ q) := by
  unfold bestTriple at h
  obtain ⟨hv, hmin, l₁, l₂, hdec, hfront⟩ := firstMin_eq_some h
  have hmem : (i, pos) ∈ pairsFor route.length cands.length := by
    rw [hdec]; exact List.mem_append.2 (Or.inr (List.mem_cons_self _ _))
  obtain ⟨hi, hpos1, hpos2⟩ := mem_pairsFor.1 hmem
  have hpw := pairsFor_pairwise route.length cands.length
  rw [hdec] at hpw
  have hrel : ∀ b ∈ l₂, (i, pos).1 < b.1 ∨ ((i, pos).1 = b.1 ∧ (i, pos).2 < b.2) :=
    (List.pairwise_cons.1 (List.pairwise_append.1 hpw).2.1).1
  refine ⟨hi, hpos1, hpos2, hv, ?_, ?_⟩
  · intro j q hj hq1 hq2
    have : (j, q) ∈ pairsFor route.length cands.length :=
      mem_pairsFor.2 ⟨hj, hq1, hq2⟩
    simpa [hv] using hmin (j, q) this
  · intro j q hj hq1 hq2 heq
    have hjq : (j, q) ∈ pairsFor route.length cands.length :=
      mem_pairsFor.2 ⟨hj, hq1, hq2⟩
    rw [hdec] at hjq
    rcases List.mem_append.1 hjq with hin1 | hin2
    · exfalso
      have hlt := hfront (j, q) hin1
      rw [hv] at heq
      exact absurd heq (ne_of_gt hlt)
    · rcases List.mem_cons.1 hin2 with heq2 | hin3
      · have hj2 : j = i := congrArg Prod.fst heq2
        have hq3 : q = pos := congrArg Prod.snd heq2
        subst hj2; subst hq3
        exact Or.inr ⟨rfl, le_refl _⟩
      · rcases hrel (j, q) hin3 with hlt | ⟨heq3, hlt⟩
        · exact Or.inl hlt
        · exact Or.inr ⟨heq3, le_of_lt hlt⟩

theorem bestTriple_isSome {route cands : List Leg} (hc : cands ≠ [])
    (hr : 2 ≤ route.length) : ∃ ipv, bestTriple route cands = some ipv := by
  unfold bestTriple
  have hmem : ((0 : ℕ), (1 : ℕ)) ∈ pairsFor route.length cands.length :=
    mem_pairsFor.2 ⟨List.length_pos.2 hc, le_refl 1, by omega⟩
  rcases hL : pairsFor route.length cands.length with _ | ⟨p, ps⟩
  · rw [hL] at hmem; simp at hmem
  · obtain ⟨z, l₁, l₂, hfm, _, _, _⟩ := firstMin_correct
      (fun ip : ℕ × ℕ => insertionCost route (cands.getD ip.1 dummyLeg) ip.2) p ps
    exact ⟨(z, _), hfm⟩

/-! ### Haversine evaluation lemmas (meridian special case) -/

theorem toRad_zero : toRad 0 = 0 := by simp [toRad]

theorem abs_toRad (x : ℝ) : |toRad x| = |x| * Real.pi / 180 := by
  unfold toRad
  rw [abs_div, abs_mul, abs_of_nonneg Real.pi_pos.le]
  norm_num

theorem arg_cos_sin {θ : ℝ} (h1 : -Real.pi < θ) (h2 : θ ≤ Real.pi) :
    Complex.arg ⟨Real.cos θ, Real.sin θ⟩ = θ := by
  have h := Complex.arg_cos_add_sin_mul_I (θ := θ) ⟨h1, h2⟩
  have he : (Complex.cos θ + Complex.sin θ * Complex.I) =
      (⟨Real.cos θ, Real.sin θ⟩ : ℂ) := by
    apply Complex.ext <;>
      simp [Complex.cos_ofReal_re, Complex.sin_ofReal_re, Complex.cos_ofReal_im,
        Complex.sin_ofReal_im]
  rw [he] at h
  exact h

theorem abs_sin_of_abs_le_pi {x : ℝ} (h : |x| ≤ Real.pi) :
    |Real.sin x| = Real.sin |x| := by
  rcases le_or_lt 0 x with hx | hx
  · rw [abs_of_nonneg hx,
      abs_of_nonneg (Real.sin_nonneg_of_nonneg_of_le_pi hx ((le_abs_self x).trans h))]
  · have h0 : (0 : ℝ) ≤ -x := by linarith
    have h1 : -x ≤ Real.pi := by rwa [abs_of_neg hx] at h
    rw [abs_of_neg hx, show Real.sin x = -Real.sin (-x) by rw [Real.sin_neg]; ring,
      abs_neg, abs_of_nonneg (Real.sin_nonneg_of_nonneg_of_le_pi h0 h1)]

theorem haversine_meridian (lon a b : ℝ) (h : |b - a| ≤ 180) :
    haversine (lon, a) (lon, b) = 6371000 * |toRad (b - a)| := by
  unfold haversine atan2
  dsimp only
  rw [sub_self, toRad_zero, zero_div, Real.sin_zero]
  rw [show (0 : ℝ) ^ 2 = 0 by norm_num, mul_zero, add_zero]
  set θ := toRad (b - a) / 2 with hθdef
  have hrad : |toRad (b - a)| ≤ Real.pi := by
    rw [abs_toRad]
    nlinarith [Real.pi_pos, abs_nonneg (b - a)]
  have hθ : |θ| ≤ Real.pi / 2 := by
    rw [hθdef, abs_div]
    rw [show |(2 : ℝ)| = 2 by norm_num]
    linarith
  have hθpi : |θ| ≤ Real.pi := le_trans hθ (by linarith [Real.pi_pos])
  have hθmem : θ ∈ Set.Icc (-(Real.pi / 2)) (Real.pi / 2) := by
    obtain ⟨ha2, hb2⟩ := abs_le.1 hθ
    exact ⟨by linarith, hb2⟩
  rw [← Real.cos_sq' θ, Real.sqrt_sq_eq_abs, Real.sqrt_sq_eq_abs]
  rw [abs_sin_of_abs_le_pi hθpi,
    abs_of_nonneg (Real.cos_nonneg_of_mem_Icc hθmem), ← Real.cos_abs θ]
  rw [arg_cos_sin (by linarith [Real.pi_pos, abs_nonneg θ]) hθpi]
  rw [hθdef, abs_div, show |(2 : ℝ)| = 2 by norm_num]
  ring

theorem unitDist_pos : 0 < unitDist := by
  unfold unitDist
  exact mul_pos (by norm_num) (div_pos Real.pi_pos (by norm_num))

theorem hav_up (lon a b : ℝ) (h1 : a ≤ b) (h2 : b - a ≤ 180) :
    haversine (lon, a) (lon, b) = (b - a) * unitDist := by
  rw [haversine_meridian lon a b (by rw [abs_of_nonneg (by linarith)]; linarith),
    abs_toRad, abs_of_nonneg (by linarith : (0 : ℝ) ≤ b - a)]
  unfold unitDist
  ring

theorem hav_down (lon a b : ℝ) (h1 : a ≤ b) (h2 : b - a ≤ 180) :
    haversine (lon, b) (lon, a) = (b - a) * unitDist := by
  have hab : a - b = -(b - a) := by ring
  have habs : |a - b| = b - a := by
    rw [hab, abs_neg, abs_of_nonneg (by linarith : (0 : ℝ) ≤ b - a)]
  rw [haversine_meridian lon b a (by rw [habs]; linarith), abs_toRad, habs]
  unfold unitDist
  ring

theorem hav01 : haversine ((0 : ℝ), (0 : ℝ)) ((0 : ℝ), (1 : ℝ)) = unitDist := by
  have := hav_up 0 0 1 (by norm_num) (by norm_num)
  linarith

theorem hav02 : haversine ((0 : ℝ), (0 : ℝ)) ((0 : ℝ), (2 : ℝ)) = 2 * unitDist := by
  have := hav_up 0 0 2 (by norm_num) (by norm_num)
  linarith

theorem hav10 : haversine ((0 : ℝ), (1 : ℝ)) ((0 : ℝ), (0 : ℝ)) = unitDist := by
  have := hav_down 0 0 1 (by norm_num) (by norm_num)
  linarith

theorem hav20 : haversine ((0 : ℝ), (2 : ℝ)) ((0 : ℝ), (0 : ℝ)) = 2 * unitDist := by
  have := hav_down 0 0 2 (by norm_num) (by norm_num)
  linarith

theorem hav12 : haversine ((0 : ℝ), (1 : ℝ)) ((0 : ℝ), (2 : ℝ)) = unitDist := by
  have := hav_up 0 1 2 (by norm_num) (by norm_num)
  linarith

theorem hav21 : haversine ((0 : ℝ), (2 : ℝ)) ((0 : ℝ), (1 : ℝ)) = unitDist := by
  have := hav_down 0 1 2 (by norm_num) (by norm_num)
  linarith

theorem hav00 : haversine ((0 : ℝ), (0 : ℝ)) ((0 : ℝ), (0 : ℝ)) = 0 := by
  have := hav_up 0 0 0 (by norm_num) (by norm_num)
  linarith

/-! ### Structural lemmas about the greedy loop, stripping, and assembly -/

theorem insertIdx_append_left {α : Type} (x : α) :
    ∀ (n : ℕ) (l₁ l₂ : List α), n ≤ l₁.length →
      (l₁ ++ l₂).insertIdx n x = l₁.insertIdx n x ++ l₂ := by
  intro n
  induction n with
  | zero => intro l₁ l₂ _; simp
  | succ m ih =>
    intro l₁ l₂ h
    cases l₁ with
    | nil => simp at h
    | cons a t =>
      rw [List.cons_append, List.insertIdx_succ_cons, List.insertIdx_succ_cons,
        List.cons_append, ih t l₂ (by simpa using h)]

theorem greedyLoop_structure :
    ∀ (n : ℕ) (cands mid : List Leg) (d0 e : Leg), n = cands.length →
      ∃ mid2, greedyLoop n cands (d0 :: mid ++ [e]) = d0 :: mid2 ++ [e] ∧
        mid2.length = mid.length + n := by
  intro n
  induction n with
  | zero => intro cands mid d0 e _; exact ⟨mid, rfl, by simp⟩
  | succ m ih =>
    intro cands mid d0 e hn
    have hcne : cands ≠ [] := by
      intro hc; rw [hc] at hn; simp at hn
    have hrlen : 2 ≤ (d0 :: mid ++ [e]).length := by simp
    obtain ⟨⟨⟨i, pos⟩, v⟩, hbt⟩ := bestTriple_isSome hcne hrlen
    obtain ⟨hi, hp1, hp2, -, -, -⟩ := bestTriple_spec hbt
    obtain ⟨q, rfl⟩ : ∃ q, pos = q + 1 := ⟨pos - 1, by omega⟩
    have hq : q ≤ mid.length := by
      have : (d0 :: mid ++ [e]).length = mid.length + 2 := by simp
      omega
    have hins : (d0 :: mid ++ [e]).insertIdx (q + 1) (cands.getD i dummyLeg) =
        d0 :: mid.insertIdx q (cands.getD i dummyLeg) ++ [e] := by
      rw [List.cons_append, List.insertIdx_succ_cons,
        insertIdx_append_left _ q mid [e] hq, List.cons_append]
    have hm : m = (cands.eraseIdx i).length := by
      have := List.length_eraseIdx_add_one hi
      omega
    obtain ⟨mid2, hrec, hlen⟩ := ih (cands.eraseIdx i)
      (mid.insertIdx q (cands.getD i dummyLeg)) d0 e hm
    refine ⟨mid2, ?_, ?_⟩
    · simp only [greedyLoop, hbt]
      rw [hins]
      exact hrec
    · rw [hlen, List.length_insertIdx q _ hq]
      omega

theorem stripDummies_both (d0 e : Leg) (mid : List Leg) (h0 : d0.waypoint = none)
    (he : e.waypoint = none) : stripDummies (d0 :: mid ++ [e]) = mid := by
  rw [show (d0 :: mid ++ [e] : List Leg) = d0 :: (mid ++ [e]) from rfl]
  simp only [stripDummies, h0, Option.isNone_none, if_true, List.getLast?_concat]
  simp [he, List.dropLast_concat]

theorem stripDummies_endpoint (d0 e : Leg) (mid : List Leg) (h0 : d0.waypoint = none)
    (he : e.waypoint.isSome) : stripDummies (d0 :: mid ++ [e]) = mid ++ [e] := by
  obtain ⟨c, hc⟩ := Option.isSome_iff_exists.1 he
  rw [show (d0 :: mid ++ [e] : List Leg) = d0 :: (mid ++ [e]) from rfl]
  simp only [stripDummies, h0, Option.isNone_none, if_true, List.getLast?_concat]
  simp [hc]

theorem calculateGreedyInsertionOrder_length (start : Point) (ws : List Leg)
    (endC : Option Point) (hws : ∀ l ∈ ws, l.waypoint.isSome) :
    (calculateGreedyInsertionOrder start ws endC).length = ws.length := by
  unfold calculateGreedyInsertionOrder
  by_cases hempty : ws.isEmpty
  · rw [if_pos hempty, List.isEmpty_iff.1 hempty]
  · rw [if_neg hempty]
    cases endC with
    | none =>
      dsimp only
      obtain ⟨mid2, heq, hlen⟩ :=
        greedyLoop_structure ws.length ws [] ⟨start, none⟩ ⟨start, none⟩ rfl
      rw [show ([⟨start, none⟩, ⟨start, none⟩] : List Leg) =
          ⟨start, none⟩ :: [] ++ [⟨start, none⟩] from rfl, heq,
        stripDummies_both _ _ _ rfl rfl]
      simpa using hlen
    | some ec =>
      dsimp only
      by_cases hfound : ws.findIdx (fun wp => decide (wp.coords = ec)) < ws.length
      · rw [if_pos hfound]
        dsimp only
        obtain ⟨mid2, heq, hlen⟩ := greedyLoop_structure
          (ws.eraseIdx (ws.findIdx fun wp => decide (wp.coords = ec))).length
          (ws.eraseIdx (ws.findIdx fun wp => decide (wp.coords = ec)))
          [] ⟨start, none⟩
          (ws.getD (ws.findIdx fun wp => decide (wp.coords = ec)) dummyLeg) rfl
        have hepSome :
            (ws.getD (ws.findIdx fun wp => decide (wp.coords = ec)) dummyLeg).waypoint.isSome := by
          apply hws
          rw [List.getD_eq_getElem?_getD, List.getElem?_eq_getElem hfound]
          simp only [Option.getD_some]
          exact List.getElem_mem hfound
        rw [show ([⟨start, none⟩,
            ws.getD (ws.findIdx fun wp => decide (wp.coords = ec)) dummyLeg] : List Leg) =
            ⟨start, none⟩ :: [] ++
              [ws.getD (ws.findIdx fun wp => decide (wp.coords = ec)) dummyLeg] from rfl,
          heq, stripDummies_endpoint _ _ _ rfl hepSome]
        have hlen1 := List.length_eraseIdx_add_one hfound
        simp only [List.length_nil, Nat.zero_add] at hlen
        simp only [List.length_append, List.length_cons, List.length_nil, hlen]
        omega
      · rw [if_neg hfound]
        dsimp only
        obtain ⟨mid2, heq, hlen⟩ :=
          greedyLoop_structure ws.length ws [] ⟨start, none⟩ ⟨start, none⟩ rfl
        rw [show ([⟨start, none⟩, ⟨start, none⟩] : List Leg) =
            ⟨start, none⟩ :: [] ++ [⟨start, none⟩] from rfl, heq,
          stripDummies_both _ _ _ rfl rfl]
        simpa using hlen

theorem buildWaypoints_displayNumbers (cur : CurrentLocation) (endW : Option Waypoint)
    (rs : List Leg) :
    (buildWaypoints cur endW rs).map (·.displayNumber) = List.range (rs.length + 1) := by
  unfold buildWaypoints
  rw [List.map_cons, List.map_map]
  show (0 :: List.map (Nat.succ ∘ Prod.fst) rs.enum) = List.range (rs.length + 1)
  rw [← List.map_map, List.enum_map_fst, ← List.range_succ_eq_map]

theorem buildWaypoints_length (cur : CurrentLocation) (endW : Option Waypoint)
    (rs : List Leg) : (buildWaypoints cur endW rs).length = rs.length + 1 := by
  have := congrArg List.length (buildWaypoints_displayNumbers cur endW rs)
  simpa using this

theorem geocodeList_length {geo : String → Option Point} :
    ∀ {l : List Waypoint} {gis}, geocodeList geo l = .ok gis → gis.length = l.length := by
  intro l
  induction l with
  | nil =>
    intro gis h
    simp only [geocodeList] at h
    cases h
    rfl
  | cons w t ih =>
    intro gis h
    simp only [geocodeList] at h
    cases hg : geo w.address with
    | none => rw [hg] at h; cases h
    | some c =>
      rw [hg] at h
      cases ht : geocodeList geo t with
      | error e => rw [ht] at h; cases h
      | ok gs =>
        rw [ht] at h
        cases h
        simp [ih ht]

theorem geocodeList_error_first {geo : String → Option Point} :
    ∀ (l₁ : List Waypoint) (w : Waypoint) (l₂ : List Waypoint),
      (∀ u ∈ l₁, (geo u.address).isSome) → geo w.address = none →
      geocodeList geo (l₁ ++ w :: l₂) =
        .error ("Destination \"" ++ w.address ++ "\" not found") := by
  intro l₁
  induction l₁ with
  | nil =>
    intro w l₂ _ hw
    simp [geocodeList, hw]
  | cons u t ih =>
    intro w l₂ hall hw
    obtain ⟨c, hc⟩ := Option.isSome_iff_exists.1 (hall u (by simp))
    rw [List.cons_append]
    simp only [geocodeList, hc, ih w l₂ (fun x hx => hall x (by simp [hx])) hw]

theorem get?_append_length {α : Type} :
    ∀ (l₁ : List α) (x : α) (l₂ : List α), (l₁ ++ x :: l₂).get? l₁.length = some x := by
  intro l₁
  induction l₁ with
  | nil => intro x l₂; rfl
  | cons a t ih => intro x l₂; simpa using ih x l₂

theorem eraseIdx_append_length {α : Type} :
    ∀ (l₁ : List α) (x : α) (l₂ : List α),
      (l₁ ++ x :: l₂).eraseIdx l₁.length = l₁ ++ l₂ := by
  intro l₁
  induction l₁ with
  | nil => intro x l₂; simp
  | cons a t ih =>
    intro x l₂
    rw [List.cons_append, List.length_cons, List.eraseIdx_cons_succ, ih, List.cons_append]

theorem findIdx_prepend {α : Type} {p : α → Bool} :
    ∀ (l₁ : List α) (x : α) (l₂ : List α), (∀ u ∈ l₁, p u = false) → p x = true →
      (l₁ ++ x :: l₂).findIdx p = l₁.length := by
  intro l₁
  induction l₁ with
  | nil =>
    intro x l₂ _ hx
    simp [List.findIdx_cons, hx]
  | cons a t ih =>
    intro x l₂ hall hx
    rw [List.cons_append, List.findIdx_cons, hall a (by simp), List.length_cons,
      ih x l₂ (fun u hu => hall u (by simp [hu])) hx]
    rfl

theorem partitionEndpoint_fst (l : List Waypoint) :
    (partitionEndpoint l).1 = l.find? (·.isEndPoint) := by
  unfold partitionEndpoint
  induction l with
  | nil => rfl
  | cons w t ih =>
    dsimp only
    rw [List.findIdx_cons, List.find?_cons]
    cases hw : w.isEndPoint with
    | true => simp
    | false =>
      simp only [Bool.cond_false]
      rw [List.get?_cons_succ]
      exact ih

theorem partitionEndpoint_some_length {l : List Waypoint} {e : Waypoint}
    (h : (partitionEndpoint l).1 = some e) :
    (partitionEndpoint l).2.length + 1 = l.length := by
  unfold partitionEndpoint at h ⊢
  dsimp only at h ⊢
  obtain ⟨hlt, -⟩ := List.get?_eq_some.1 h
  exact List.length_eraseIdx_add_one hlt

theorem partitionEndpoint_none_length {l : List Waypoint}
    (h : (partitionEndpoint l).1 = none) :
    (partitionEndpoint l).2 = l := by
  unfold partitionEndpoint at h ⊢
  dsimp only at h ⊢
  have hge := List.get?_eq_none.1 h
  rw [List.eraseIdx_of_length_le hge]

/-! ### Concrete evaluation of the heuristics on the worked examples -/

theorem ic_ex1_A :
    insertionCost [⟨((0 : ℝ), (0 : ℝ)), none⟩, ⟨((0 : ℝ), (0 : ℝ)), none⟩] legA1 1 =
    2 * unitDist := by
  unfold insertionCost legA1
  rw [show (1 : ℕ) - 1 = 0 from rfl]
  simp only [List.getD_cons_zero, List.getD_cons_succ]
  rw [hav01, hav10, hav00]
  ring

theorem ic_ex1_B :
    insertionCost [⟨((0 : ℝ), (0 : ℝ)), none⟩, ⟨((0 : ℝ), (0 : ℝ)), none⟩] legB1 1 =
    4 * unitDist := by
  unfold insertionCost legB1
  rw [show (1 : ℕ) - 1 = 0 from rfl]
  simp only [List.getD_cons_zero, List.getD_cons_succ]
  rw [hav02, hav20, hav00]
  ring

theorem bt_ex1_step1 :
    bestTriple [⟨((0 : ℝ), (0 : ℝ)), none⟩, ⟨((0 : ℝ), (0 : ℝ)), none⟩] [legA1, legB1] =
      some ((0, 1), 2 * unitDist) := by
  unfold bestTriple
  rw [show ([⟨((0 : ℝ), (0 : ℝ)), none⟩, ⟨((0 : ℝ), (0 : ℝ)), none⟩] : List Leg).length = 2
      from rfl,
    show ([legA1, legB1] : List Leg).length = 2 from rfl,
    show pairsFor 2 2 = [(0, 1), (1, 1)] from rfl]
  unfold firstMin
  rw [List.foldl_cons, List.foldl_cons, List.foldl_nil]
  simp only [stepMin, List.getD_cons_zero, List.getD_cons_succ]
  rw [ic_ex1_A, ic_ex1_B,
    if_neg (by linarith [unitDist_pos] : ¬ (4 * unitDist < 2 * unitDist))]

theorem ic_ex1_B1 :
    insertionCost [⟨((0 : ℝ), (0 : ℝ)), none⟩, legA1, ⟨((0 : ℝ), (0 : ℝ)), none⟩] legB1 1 =
    2 * unitDist := by
  unfold insertionCost legA1 legB1
  rw [show (1 : ℕ) - 1 = 0 from rfl]
  simp only [List.getD_cons_zero, List.getD_cons_succ]
  rw [hav02, hav21, hav01]
  ring

theorem ic_ex1_B2 :
    insertionCost [⟨((0 : ℝ), (0 : ℝ)), none⟩, legA1, ⟨((0 : ℝ), (0 : ℝ)), none⟩] legB1 2 =
    2 * unitDist := by
  unfold insertionCost legA1 legB1
  rw [show (2 : ℕ) - 1 = 1 from rfl]
  simp only [List.getD_cons_zero, List.getD_cons_succ]
  rw [hav12, hav20, hav10]
  ring

theorem bt_ex1_step2 :
    bestTriple [⟨((0 : ℝ), (0 : ℝ)), none⟩, legA1, ⟨((0 : ℝ), (0 : ℝ)), none⟩] [legB1] =
      some ((0, 1), 2 * unitDist) := by
  unfold bestTriple
  rw [show ([⟨((0 : ℝ), (0 : ℝ)), none⟩, legA1, ⟨((0 : ℝ), (0 : ℝ)), none⟩] : List Leg).length = 3
      from rfl,
    show ([legB1] : List Leg).length = 1 from rfl,
    show pairsFor 3 1 = [(0, 1), (0, 2)] from rfl]
  unfold firstMin
  rw [List.foldl_cons, List.foldl_cons, List.foldl_nil]
  simp only [stepMin, List.getD_cons_zero, List.getD_cons_succ]
  rw [ic_ex1_B1, ic_ex1_B2, if_neg (lt_irrefl _)]

theorem greedy_ex1 :
    calculateGreedyInsertionOrder ((0 : ℝ), (0 : ℝ)) [legA1, legB1] none =
      [legB1, legA1] := by
  unfold calculateGreedyInsertionOrder
  rw [if_neg (by simp)]
  dsimp only
  have hstep1 : greedyLoop 2 [legA1, legB1]
      [⟨((0 : ℝ), (0 : ℝ)), none⟩, ⟨((0 : ℝ), (0 : ℝ)), none⟩] =
      greedyLoop 1 [legB1] [⟨((0 : ℝ), (0 : ℝ)), none⟩, legA1, ⟨((0 : ℝ), (0 : ℝ)), none⟩] := by
    simp only [greedyLoop, bt_ex1_step1]
    rfl
  have hstep2 : greedyLoop 1 [legB1]
      [⟨((0 : ℝ), (0 : ℝ)), none⟩, legA1, ⟨((0 : ℝ), (0 : ℝ)), none⟩] =
      [⟨((0 : ℝ), (0 : ℝ)), none⟩, legB1, legA1, ⟨((0 : ℝ), (0 : ℝ)), none⟩] := by
    simp only [greedyLoop, bt_ex1_step2]
    rfl
  rw [show ([legA1, legB1] : List Leg).length = 2 from rfl, hstep1, hstep2]
  rw [show ([⟨((0 : ℝ), (0 : ℝ)), none⟩, legB1, legA1, ⟨((0 : ℝ), (0 : ℝ)), none⟩] : List Leg) =
      ⟨((0 : ℝ), (0 : ℝ)), none⟩ :: [legB1, legA1] ++ [⟨((0 : ℝ), (0 : ℝ)), none⟩] from rfl]
  exact stripDummies_both _ _ _ rfl rfl

theorem nnSelect_ex2 :
    nnSelect ((0 : ℝ), (0 : ℝ)) [legA2, legB2] = some (1, legB2) := by
  unfold nnSelect firstMin
  rw [show ([legA2, legB2] : List Leg).enum = [(0, legA2), (1, legB2)] from rfl]
  rw [List.foldl_cons, List.foldl_cons, List.foldl_nil]
  simp only [stepMin]
  unfold legA2 legB2
  dsimp only
  rw [hav01, hav02]
  rw [if_pos (by linarith [unitDist_pos] : unitDist < 2 * unitDist)]
  rfl

theorem nn_ex2 :
    calculateNearestNeighborOrder ((0 : ℝ), (0 : ℝ)) [legA2, legB2] none =
      [legB2, legA2] := by
  unfold calculateNearestNeighborOrder
  dsimp only
  rw [show ([legA2, legB2] : List Leg).length = 2 from rfl]
  have h1 : nnLoop 2 ((0 : ℝ), (0 : ℝ)) [legA2, legB2] =
      legB2 :: nnLoop 1 legB2.coords [legA2] := by
    simp only [nnLoop, nnSelect_ex2]
    rfl
  have h2 : nnLoop 1 legB2.coords [legA2] = [legA2] := by
    simp only [nnLoop]
    rw [show nnSelect legB2.coords [legA2] = some (0, legA2) from rfl]
  rw [h1, h2]
  simp

theorem nnSelect_spec {cur : Point} {l : List Leg} {i : ℕ} {x : Leg}
    (h : nnSelect cur l = some (i, x)) :
    l.get? i = some x ∧
    (∀ j y, l.get? j = some y → haversine cur x.coords ≤ haversine cur y.coords) ∧
    ∀ j y, j < i → l.get? j = some y →
      haversine cur x.coords < haversine cur y.coords := by
  unfold nnSelect at h
  cases hfm : firstMin (fun p : ℕ × Leg => haversine cur p.2.coords) l.enum with
  | none => rw [hfm] at h; cases h
  | some zv =>
    rw [hfm] at h
    obtain ⟨z, v⟩ := zv
    have hz : z = (i, x) := by simpa using h
    subst hz
    obtain ⟨hv, hmin, l₁, l₂, hdec, hfront⟩ := firstMin_eq_some hfm
    have hpos : l.enum.get? l₁.length = some (i, x) := by
      rw [hdec]; exact get?_append_length _ _ _
    rw [List.get?_eq_getElem?, List.getElem?_enum] at hpos
    cases hx : l[l₁.length]? with
    | none => rw [hx] at hpos; cases hpos
    | some y2 =>
      rw [hx] at hpos
      have hpos2 : some (l₁.length, y2) = some (i, x) := by simpa using hpos
      have hi : l₁.length = i := congrArg Prod.fst (Option.some.inj hpos2)
      have hy : y2 = x := congrArg Prod.snd (Option.some.inj hpos2)
      refine ⟨?_, ?_, ?_⟩
      · rw [List.get?_eq_getElem?, ← hi, hx, hy]
      · intro j y hj
        have hjm : (j, y) ∈ l.enum := by
          apply List.get?_mem (n := j)
          rw [List.get?_eq_getElem?, List.getElem?_enum,
            show l[j]? = some y from by rw [← List.get?_eq_getElem?]; exact hj]
          rfl
        simpa using hmin (j, y) hjm
      · intro j y hji hj
        have hjm : (j, y) ∈ l₁ := by
          have hjp : l.enum.get? j = some (j, y) := by
            rw [List.get?_eq_getElem?, List.getElem?_enum,
              show l[j]? = some y from by rw [← List.get?_eq_getElem?]; exact hj]
            rfl
          rw [hdec] at hjp
          rw [List.get?_append (by omega : j < l₁.length)] at hjp
          exact List.get?_mem hjp
        simpa using hfront (j, y) hjm

theorem nn_endpoint (start : Point) (ws : List Leg) (e : Point)
    (h : ws.findIdx (fun wp => decide (wp.coords = e)) < ws.length) :
    calculateNearestNeighborOrder start ws (some e) =
      calculateNearestNeighborOrder start
        (ws.eraseIdx (ws.findIdx fun wp => decide (wp.coords = e))) none ++
      [ws.getD (ws.findIdx fun wp => decide (wp.coords = e)) dummyLeg] := by
  unfold calculateNearestNeighborOrder
  dsimp only
  rw [if_pos h]
  have hget : ws.get? (ws.findIdx fun wp => decide (wp.coords = e)) =
      some (ws.getD (ws.findIdx fun wp => decide (wp.coords = e)) dummyLeg) := by
    rw [List.get?_eq_getElem?, List.getElem?_eq_getElem h, List.getD_eq_getElem?_getD,
      List.getElem?_eq_getElem h]
    rfl
  rw [hget]
  simp

/-! ### Stitching lemmas -/

theorem stitchLegs_fail_step (seg : Point → Point → Option SegRoute) (prev : Point)
    (l : Leg) (rest : List Leg) (cs : List (ℝ × ℝ)) (d t : ℝ)
    (h : seg prev l.coords = none) :
    stitchLegs seg prev (l :: rest) (cs, d, t) =
      stitchLegs seg l.coords rest
        (cs ++ [(l.coords.2, l.coords.1)], d + haversine prev l.coords,
          t + haversine prev l.coords / 13) := by
  simp only [stitchLegs, h]

theorem stitchLegs_ok_step (seg : Point → Point → Option SegRoute) (prev : Point)
    (l : Leg) (rest : List Leg) (cs : List (ℝ × ℝ)) (d t : ℝ) (r : SegRoute)
    (h : seg prev l.coords = some r) :
    stitchLegs seg prev (l :: rest) (cs, d, t) =
      stitchLegs seg l.coords rest
        ((if cs.length > 0 ∧ r.geometry.length > 1 then cs ++ r.geometry.drop 1
          else cs ++ r.geometry), d + r.distance, t + r.duration) := by
  simp only [stitchLegs, h]

theorem stitchLegs_allFail :
    ∀ (legs : List Leg) (prev : Point) (cs : List (ℝ × ℝ)) (d t : ℝ),
      stitchLegs failSeg prev legs (cs, d, t) =
        (cs ++ legs.map (fun l => (l.coords.2, l.coords.1)),
          d + pathHav prev legs, t + pathHav prev legs / 13) := by
  intro legs
  induction legs with
  | nil =>
    intro prev cs d t
    simp [stitchLegs, pathHav]
  | cons l rest ih =>
    intro prev cs d t
    rw [stitchLegs_fail_step failSeg prev l rest cs d t rfl, ih]
    simp only [pathHav, List.map_cons, Prod.mk.injEq]
    refine ⟨?_, ?_, ?_⟩
    · rw [List.append_assoc]
      rfl
    · ring
    · ring

/-! ### Pipeline reduction lemmas -/

theorem run_geocode_failure (mode : Mode) (cur : CurrentLocation)
    (ws : List Waypoint) (geo : String → Option Point)
    (trip : Mode → Option OSRMTripData)
    (seg : Mode → Point → Point → Option SegRoute) (msg : String)
    (hA : availableOf ws ≠ [])
    (hG : geocodeList geo (partitionEndpoint (availableOf ws)).2 = .error msg) :
    calculateMultiPointRoute mode (some cur) ws geo trip seg = .failure msg := by
  unfold calculateMultiPointRoute runCore
  dsimp only
  rw [if_neg (by simpa [List.isEmpty_iff] using hA), hG]

theorem run_geocodeEnd_failure (mode : Mode) (cur : CurrentLocation)
    (ws : List Waypoint) (geo : String → Option Point)
    (trip : Mode → Option OSRMTripData)
    (seg : Mode → Point → Point → Option SegRoute) (msg : String)
    (gis : List (Waypoint × Point))
    (hA : availableOf ws ≠ [])
    (hG : geocodeList geo (partitionEndpoint (availableOf ws)).2 = .ok gis)
    (hE : geocodeEnd geo (partitionEndpoint (availableOf ws)).1 = .error msg) :
    calculateMultiPointRoute mode (some cur) ws geo trip seg = .failure msg := by
  unfold calculateMultiPointRoute runCore
  dsimp only
  rw [if_neg (by simpa [List.isEmpty_iff] using hA), hG, hE]

theorem toLegs_length (gis : List (Waypoint × Point)) :
    (toLegs gis).length = gis.length := by
  simp [toLegs]

theorem toLegs_isSome (gis : List (Waypoint × Point)) :
    ∀ l ∈ toLegs gis, l.waypoint.isSome := by
  intro l hl
  obtain ⟨gw, -, rfl⟩ := List.mem_map.1 hl
  rfl

theorem run_mode_scale (mode : Mode) (loc : Option CurrentLocation)
    (ws : List Waypoint) (geo : String → Option Point)
    (trip : Mode → Option OSRMTripData)
    (seg : Mode → Point → Point → Option SegRoute) :
    calculateMultiPointRoute mode loc ws geo trip seg =
      scaleDuration (modeFactor mode)
        (calculateMultiPointRoute .driving loc ws geo trip seg) := by
  unfold calculateMultiPointRoute
  cases runCore loc ws geo trip seg with
  | success g rd =>
    dsimp only [scaleDuration]
    congr 1
    cases mode <;> simp [applyModeFactor, modeFactor] <;> ring
  | missingInfo => rfl
  | noDestinations => rfl
  | failure m => rfl

theorem run_fallback (mode : Mode) (cur : CurrentLocation) (ws : List Waypoint)
    (geo : String → Option Point) (trip : Mode → Option OSRMTripData)
    (seg : Mode → Point → Point → Option SegRoute)
    (gis : List (Waypoint × Point)) (endPair : Option (Waypoint × Point))
    (t : TripFetchResult)
    (hA : availableOf ws ≠ [])
    (hG : geocodeList geo (partitionEndpoint (availableOf ws)).2 = .ok gis)
    (hE : geocodeEnd geo (partitionEndpoint (availableOf ws)).1 = .ok endPair)
    (hT : fetchOSRMTripRoute (trip .driving) (toLegs gis) = .ok t)
    (hn : 1 < (toLegs gis).length)
    (hm : orderingRejected t (toLegs gis).length = true) :
    ∃ rd, calculateMultiPointRoute mode (some cur) ws geo trip seg =
        .success true rd ∧
      rd.waypoints.map (·.displayNumber) = List.range ((availableOf ws).length + 1) ∧
      rd.waypoints.length = (availableOf ws).length + 1 := by
  have hne : (toLegs gis).isEmpty = false := by
    cases h : toLegs gis with
    | nil => rw [h] at hn; simp at hn
    | cons a l => simp
  unfold calculateMultiPointRoute runCore
  dsimp only
  rw [if_neg (by simpa [List.isEmpty_iff] using hA), hG, hE]
  dsimp only
  rw [hne, Bool.false_and, if_neg (by simp), hT]
  dsimp only
  rw [show (decide ((toLegs gis).length > 1) && orderingRejected t (toLegs gis).length) = true
      by rw [decide_eq_true hn, hm, Bool.true_and],
    if_pos rfl]
  -- the run now returns the greedy branch; compute the waypoint numbering
  have hinsLen :
      (toLegs gis ++ endLegs endPair).length = (availableOf ws).length := by
    cases hp : (partitionEndpoint (availableOf ws)).1 with
    | none =>
      rw [hp] at hE
      have hep : endPair = none := by
        simpa [geocodeEnd] using hE.symm
      subst hep
      have h2 := partitionEndpoint_none_length hp
      rw [h2] at hG
      simp [toLegs_length, geocodeList_length hG, endLegs]
    | some e =>
      rw [hp] at hE
      simp only [geocodeEnd] at hE
      cases hge : geo e.address with
      | none => rw [hge] at hE; cases hE
      | some c =>
        rw [hge] at hE
        have hep : endPair = some ({ e with coordinates := some c }, c) := by
          cases hE; rfl
        subst hep
        have h2 := partitionEndpoint_some_length hp
        have h3 := geocodeList_length hG
        simp only [List.length_append, toLegs_length, h3, endLegs, List.length_cons,
          List.length_nil]
        omega
  have hsome : ∀ l ∈ toLegs gis ++ endLegs endPair, l.waypoint.isSome := by
    intro l hl
    rcases List.mem_append.1 hl with h1 | h2
    · exact toLegs_isSome gis l h1
    · cases endPair with
      | none => simp [endLegs] at h2
      | some ec =>
        simp only [endLegs, List.mem_singleton] at h2
        subst h2
        rfl
  have hglen := calculateGreedyInsertionOrder_length (cur.longitude, cur.latitude)
    (toLegs gis ++ endLegs endPair)
    (Option.map (fun x => x.2) endPair) hsome
  refine ⟨_, rfl, ?_, ?_⟩
  · rw [buildWaypoints_displayNumbers, hglen, hinsLen]
  · rw [buildWaypoints_length, hglen, hinsLen]

theorem run_provider (mode : Mode) (cur : CurrentLocation) (ws : List Waypoint)
    (geo : String → Option Point) (trip : Mode → Option OSRMTripData)
    (seg : Mode → Point → Point → Option SegRoute)
    (gis : List (Waypoint × Point)) (endPair : Option (Waypoint × Point))
    (t : TripFetchResult)
    (hA : availableOf ws ≠ [])
    (hG : geocodeList geo (partitionEndpoint (availableOf ws)).2 = .ok gis)
    (hE : geocodeEnd geo (partitionEndpoint (availableOf ws)).1 = .ok endPair)
    (hne2 : ((toLegs gis).isEmpty && endPair.isNone) = false)
    (hT : fetchOSRMTripRoute (trip .driving) (toLegs gis) = .ok t)
    (hnm : (decide ((toLegs gis).length > 1) &&
      orderingRejected t (toLegs gis).length) = false) :
    calculateMultiPointRoute mode (some cur) ws geo trip seg =
      .success false ⟨t.distance, applyModeFactor mode t.duration, t.geometry,
        buildWaypoints cur (partitionEndpoint (availableOf ws)).1 t.reordered⟩ := by
  unfold calculateMultiPointRoute runCore
  dsimp only
  rw [if_neg (by simpa [List.isEmpty_iff] using hA), hG, hE]
  dsimp only
  rw [hne2, if_neg (by simp), hT]
  dsimp only
  rw [hnm, if_neg (by simp)]

theorem partitionEndpoint_two_flagged (pre mid post : List Waypoint)
    (e1 e2 : Waypoint) (hpre : ∀ w ∈ pre, w.isEndPoint = false)
    (h1 : e1.isEndPoint = true) (_h2 : e2.isEndPoint = true) :
    (partitionEndpoint (pre ++ e1 :: (mid ++ e2 :: post))).1 = some e1 ∧
    e2 ∈ (partitionEndpoint (pre ++ e1 :: (mid ++ e2 :: post))).2 := by
  unfold partitionEndpoint
  dsimp only
  rw [findIdx_prepend pre e1 _ hpre h1]
  constructor
  · exact get?_append_length pre e1 _
  · rw [eraseIdx_append_length]
    simp

theorem segC10_first :
    segC10 ((0 : ℝ), (0 : ℝ)) legS1.coords = some ⟨[(0, 0), (1, 1)], 1, 1⟩ := by
  unfold segC10 legS1
  rw [if_pos rfl]

theorem segC10_second :
    segC10 legS1.coords legS2.coords = some ⟨[(5, 5), (2, 2)], 1, 1⟩ := by
  unfold segC10 legS2
  rw [if_neg (by
    intro h
    rw [Prod.mk.injEq] at h
    exact absurd h.1 (by norm_num))]

theorem stitch_C10_eval :
    stitchLegs segC10 ((0 : ℝ), (0 : ℝ)) [legS1, legS2] ([], 0, 0) =
      ([(0, 0), (1, 1), (2, 2)], 2, 2) := by
  rw [stitchLegs_ok_step segC10 ((0 : ℝ), (0 : ℝ)) legS1 [legS2] [] 0 0 _ segC10_first]
  rw [if_neg (by simp)]
  rw [stitchLegs_ok_step segC10 legS1.coords legS2 [] _ _ _ _ segC10_second]
  rw [if_pos (by constructor <;> simp)]
  simp only [stitchLegs, Prod.mk.injEq]
  refine ⟨by simp, by norm_num, by norm_num⟩

/-! ### Claim theorems -/

/-- C1: the claim says that whenever exactly one unvisited stop is flagged
`isEndPoint`, that stop is the last output waypoint and holds the final
`displayNumber`, on the provider path as well as the fallback path.  The
code violates this on the provider path: with a single unvisited end-flagged
stop ("End St", id `e1`) that geocodes fine and a trip response that is
accepted, the provider path builds `reordered` from the intermediate
destinations only — which are empty — so the returned waypoint list is just
the start location, and the end-flagged stop is absent altogether.  This
theorem evaluates the engine at that failing input. -/
theorem claim_C1 :
    calculateMultiPointRoute .driving (some locHome) [wpEnd1] geoConst tripC1 segNone =
      .success false ⟨1000, 600, [], [⟨0, 0, "Home", "Your Location", "start", 0⟩]⟩ ∧
    wpEnd1.isEndPoint = true ∧ wpEnd1.visited = false :=
  ⟨rfl, rfl, rfl⟩

/-- C2: the claim says the output `displayNumber`s form the contiguous
sequence `0..n` with `n` the number of available (unvisited, non-blank)
stops, and no visited stop appears.  The code violates the length part on
the provider path with a designated endpoint: with one intermediate stop
("A") and one end-flagged stop ("B"), both available (`n = 2`), and an
accepted trip ordering `[0]`, the output has display numbers `[0, 1]` — the
endpoint is never appended to `reordered`; instead the last intermediate
waypoint is relabelled with the endpoint's address/name/id, so one stop is
silently dropped and the sequence is one short. -/
theorem claim_C2 :
    calculateMultiPointRoute .driving (some locHome) [wpI2, wpE2] geoC2 tripC2 segNone =
      .success false ⟨100, 600, [],
        [⟨0, 0, "Home", "Your Location", "start", 0⟩, ⟨1, 0, "B", "End", "e2", 1⟩]⟩ ∧
    (availableOf [wpI2, wpE2]).length = 2 :=
  ⟨rfl, rfl⟩

/-- C3 counterexample: with two end-flagged stops (`ea` at address "X1" and
`eb` at "X2") the engine does NOT signal an error: it returns a successful
route, silently treating the first flagged stop as the endpoint (the final
waypoint carries `ea`'s address and id) and the second flagged stop as an
ordinary intermediate stop. -/
theorem claim_C3_counterexample :
    calculateMultiPointRoute .driving (some locHome) [wpEa, wpEb] geoC3 tripC3 segNone =
      .success false ⟨7, 8, [],
        [⟨0, 0, "Home", "Your Location", "start", 0⟩, ⟨4, 4, "X1", "", "ea", 1⟩]⟩ ∧
    wpEa.isEndPoint = true ∧ wpEb.isEndPoint = true :=
  ⟨rfl, rfl, rfl⟩

/-- C3 (amended): if more than one stop is flagged `isEndPoint`, the engine
does not signal an error; its endpoint partition selects the first flagged
stop in input order (exactly `find?`) as the endpoint and keeps every later
flagged stop among the intermediate stops. -/
theorem claim_C3 :
    (∀ l : List Waypoint, (partitionEndpoint l).1 = l.find? (·.isEndPoint)) ∧
    ∀ (pre mid post : List Waypoint) (e1 e2 : Waypoint),
      (∀ w ∈ pre, w.isEndPoint = false) → e1.isEndPoint = true →
      e2.isEndPoint = true →
      (partitionEndpoint (pre ++ e1 :: (mid ++ e2 :: post))).1 = some e1 ∧
      e2 ∈ (partitionEndpoint (pre ++ e1 :: (mid ++ e2 :: post))).2 :=
  ⟨partitionEndpoint_fst, partitionEndpoint_two_flagged⟩

/-- C3 witness: the amended theorem applied to the concrete two-endpoint
input `[wpEa, wpEb]`. -/
theorem claim_C3_witness :
    (wpEa.isEndPoint = true ∧ wpEb.isEndPoint = true) ∧
    (partitionEndpoint ([] ++ wpEa :: ([] ++ wpEb :: []))).1 = some wpEa ∧
    wpEb ∈ (partitionEndpoint ([] ++ wpEa :: ([] ++ wpEb :: []))).2 :=
  ⟨⟨rfl, rfl⟩, claim_C3.2 [] [] [] wpEa wpEb (by simp) rfl rfl⟩

/-- C4 counterexample: the trip response for the single stop "C" has NO
ordering array, so the ordering-rejection condition holds for the one
requested intermediate leg; yet the engine does not fall back to
Greedy-Cheapest-Insertion — it keeps the provider trip (the success flag
`false` records that `useGreedyInsertion` stayed false, and the returned
geometry is the provider geometry), because the fallback is only triggered
when more than one intermediate leg was requested. -/
theorem claim_C4_counterexample :
    fetchOSRMTripRoute (tripC4 .driving)
        (toLegs [(⟨"i4", "C", "", some (1, 1), false, false⟩, ((1 : ℝ), (1 : ℝ)))]) =
      .ok ⟨[(20, 10)], 50, 60, none,
        [⟨(1, 1), some ⟨"i4", "C", "", some (1, 1), false, false⟩⟩]⟩ ∧
    orderingRejected
      ⟨[(20, 10)], 50, 60, none,
        [⟨(1, 1), some ⟨"i4", "C", "", some (1, 1), false, false⟩⟩]⟩ 1 = true ∧
    calculateMultiPointRoute .driving (some locHome) [wpI4] geoC4 tripC4 segNone =
      .success false ⟨50, 60, [(20, 10)],
        [⟨0, 0, "Home", "Your Location", "start", 0⟩, ⟨1, 1, "C", "", "i4", 1⟩]⟩ :=
  ⟨rfl, rfl, rfl⟩

/-- C4 (amended): a missing or wrong-length ordering array is always
recoverable, never a hard error.  When MORE than one intermediate leg was
requested, the engine falls back to Greedy-Cheapest-Insertion and still
returns a valid, fully ordered result (success, contiguous display numbers
`0..n`); with at most one intermediate leg the provider trip is kept with
the input order, still returning a successful result. -/
theorem claim_C4 :
    (∀ (mode : Mode) (cur : CurrentLocation) (ws : List Waypoint)
       (geo : String → Option Point) (trip : Mode → Option OSRMTripData)
       (seg : Mode → Point → Point → Option SegRoute)
       (gis : List (Waypoint × Point)) (endPair : Option (Waypoint × Point))
       (t : TripFetchResult),
       availableOf ws ≠ [] →
       geocodeList geo (partitionEndpoint (availableOf ws)).2 = .ok gis →
       geocodeEnd geo (partitionEndpoint (availableOf ws)).1 = .ok endPair →
       fetchOSRMTripRoute (trip .driving) (toLegs gis) = .ok t →
       1 < (toLegs gis).length →
       orderingRejected t (toLegs gis).length = true →
       ∃ rd, calculateMultiPointRoute mode (some cur) ws geo trip seg =
           .success true rd ∧
         rd.waypoints.map (·.displayNumber) =
           List.range ((availableOf ws).length + 1) ∧
         rd.waypoints.length = (availableOf ws).length + 1) ∧
    ∀ (mode : Mode) (cur : CurrentLocation) (ws : List Waypoint)
      (geo : String → Option Point) (trip : Mode → Option OSRMTripData)
      (seg : Mode → Point → Point → Option SegRoute)
      (gis : List (Waypoint × Point)) (endPair : Option (Waypoint × Point))
      (t : TripFetchResult),
      availableOf ws ≠ [] →
      geocodeList geo (partitionEndpoint (availableOf ws)).2 = .ok gis →
      geocodeEnd geo (partitionEndpoint (availableOf ws)).1 = .ok endPair →
      ((toLegs gis).isEmpty && endPair.isNone) = false →
      fetchOSRMTripRoute (trip .driving) (toLegs gis) = .ok t →
      (decide ((toLegs gis).length > 1) &&
        orderingRejected t (toLegs gis).length) = false →
      calculateMultiPointRoute mode (some cur) ws geo trip seg =
        .success false ⟨t.distance, applyModeFactor mode t.duration, t.geometry,
          buildWaypoints cur (partitionEndpoint (availableOf ws)).1 t.reordered⟩ := by
  constructor
  · intro mode cur ws geo trip seg gis endPair t hA hG hE hT hn hm
    exact run_fallback mode cur ws geo trip seg gis endPair t hA hG hE hT hn hm
  · intro mode cur ws geo trip seg gis endPair t hA hG hE hne2 hT hnm
    exact run_provider mode cur ws geo trip seg gis endPair t hA hG hE hne2 hT hnm

/-- C4 witness: the fallback half of the amended theorem applied to a
concrete two-stop input whose trip response lacks the ordering array. -/
theorem claim_C4_witness :
    (availableOf [wpF1, wpF2] ≠ [] ∧
     geocodeList geoF (partitionEndpoint (availableOf [wpF1, wpF2])).2 =
       .ok [(⟨"f1", "F1", "", some (0, 1), false, false⟩, ((0 : ℝ), (1 : ℝ))),
           (⟨"f2", "F2", "", some (0, 2), false, false⟩, ((0 : ℝ), (2 : ℝ)))] ∧
     orderingRejected ⟨[], 30, 40, none,
       [⟨(0, 1), some ⟨"f1", "F1", "", some (0, 1), false, false⟩⟩,
        ⟨(0, 2), some ⟨"f2", "F2", "", some (0, 2), false, false⟩⟩]⟩ 2 = true) ∧
    ∃ rd, calculateMultiPointRoute .driving (some locHome) [wpF1, wpF2] geoF tripF
        segNone = .success true rd ∧
      rd.waypoints.map (·.displayNumber) =
        List.range ((availableOf [wpF1, wpF2]).length + 1) ∧
      rd.waypoints.length = (availableOf [wpF1, wpF2]).length + 1 :=
  ⟨⟨by simp [availableOf, wpF1, wpF2, jsTrim], rfl, rfl⟩,
    claim_C4.1 .driving locHome [wpF1, wpF2] geoF tripF segNone
      [(⟨"f1", "F1", "", some (0, 1), false, false⟩, ((0 : ℝ), (1 : ℝ))),
       (⟨"f2", "F2", "", some (0, 2), false, false⟩, ((0 : ℝ), (2 : ℝ)))]
      none
      ⟨[], 30, 40, none,
        [⟨(0, 1), some ⟨"f1", "F1", "", some (0, 1), false, false⟩⟩,
         ⟨(0, 2), some ⟨"f2", "F2", "", some (0, 2), false, false⟩⟩]⟩
      (by simp [availableOf, wpF1, wpF2, jsTrim]) rfl rfl rfl one_lt_two rfl⟩

/-- C5: the aggregate duration is a driving-mode estimate compensated
exactly once, after aggregation: for every travel mode and every input, the
result equals the driving-mode result with only its success duration scaled
by the mode factor (walking 3.0, cycling 1.5, driving 1); concretely, a
computed driving duration of 600 s in walking mode is reported as 1800 s. -/
theorem claim_C5 :
    (∀ (mode : Mode) (loc : Option CurrentLocation) (ws : List Waypoint)
       (geo : String → Option Point) (trip : Mode → Option OSRMTripData)
       (seg : Mode → Point → Point → Option SegRoute),
       calculateMultiPointRoute mode loc ws geo trip seg =
         scaleDuration (modeFactor mode)
           (calculateMultiPointRoute .driving loc ws geo trip seg)) ∧
    modeFactor .walking = 3 ∧ modeFactor .cycling = 1.5 ∧ modeFactor .driving = 1 ∧
    calculateMultiPointRoute .walking (some locHome) [wpI5] geoC5 tripC5 segNone =
      .success false ⟨100, 1800, [],
        [⟨0, 0, "Home", "Your Location", "start", 0⟩, ⟨2, 2, "D", "", "i5", 1⟩]⟩ := by
  refine ⟨run_mode_scale, rfl, rfl, rfl, ?_⟩
  have h : calculateMultiPointRoute .walking (some locHome) [wpI5] geoC5 tripC5 segNone =
      .success false ⟨100, (600 : ℝ) * 3, [],
        [⟨0, 0, "Home", "Your Location", "start", 0⟩, ⟨2, 2, "D", "", "i5", 1⟩]⟩ := rfl
  rw [h, show (600 : ℝ) * 3 = 1800 by norm_num]

/-- C6 counterexample: the first stop in input order is the end-flagged stop
`e6` with unresolvable address "X", and the second stop `i6` has
unresolvable address "Y"; the operation fails with the message for "Y", not
"X" — geocoding is NOT performed in input order, because the end-flagged
stop is pulled out of the list and geocoded only after all intermediate
stops. -/
theorem claim_C6_counterexample :
    calculateMultiPointRoute .driving (some locHome) [wpE6, wpI6] geoNone tripC1
        segNone = .failure "Destination \"Y\" not found" ∧
    geoNone "X" = none ∧ wpE6.address = "X" ∧ wpE6.isEndPoint = true ∧
    wpI6.address = "Y" :=
  ⟨rfl, rfl, rfl, rfl, rfl⟩

/-- C6 (amended): geocoding is sequential — the intermediate stops in input
order, then the end-flagged stop — and the whole operation fails on the
first stop in that traversal order whose address cannot be resolved, for
every trip and segment oracle (so before any trip or segment call can have
an effect), never returning a partial route. -/
theorem claim_C6 :
    (∀ (geo : String → Option Point) (l₁ : List Waypoint) (w : Waypoint)
       (l₂ : List Waypoint),
       (∀ u ∈ l₁, (geo u.address).isSome) → geo w.address = none →
       geocodeList geo (l₁ ++ w :: l₂) =
         .error ("Destination \"" ++ w.address ++ "\" not found")) ∧
    (∀ (mode : Mode) (cur : CurrentLocation) (ws : List Waypoint)
       (geo : String → Option Point) (trip : Mode → Option OSRMTripData)
       (seg : Mode → Point → Point → Option SegRoute) (msg : String),
       availableOf ws ≠ [] →
       geocodeList geo (partitionEndpoint (availableOf ws)).2 = .error msg →
       calculateMultiPointRoute mode (some cur) ws geo trip seg = .failure msg) ∧
    ∀ (mode : Mode) (cur : CurrentLocation) (ws : List Waypoint)
      (geo : String → Option Point) (trip : Mode → Option OSRMTripData)
      (seg : Mode → Point → Point → Option SegRoute) (msg : String)
      (gis : List (Waypoint × Point)),
      availableOf ws ≠ [] →
      geocodeList geo (partitionEndpoint (availableOf ws)).2 = .ok gis →
      geocodeEnd geo (partitionEndpoint (availableOf ws)).1 = .error msg →
      calculateMultiPointRoute mode (some cur) ws geo trip seg = .failure msg := by
  refine ⟨?_, ?_, ?_⟩
  · intro geo l₁ w l₂ h1 h2
    exact geocodeList_error_first l₁ w l₂ h1 h2
  · intro mode cur ws geo trip seg msg hA hG
    exact run_geocode_failure mode cur ws geo trip seg msg hA hG
  · intro mode cur ws geo trip seg msg gis hA hG hE
    exact run_geocodeEnd_failure mode cur ws geo trip seg msg gis hA hG hE

/-- C6 witness: the pipeline part of the amended theorem applied to the
concrete all-failing geocoder input. -/
theorem claim_C6_witness :
    (availableOf [wpE6, wpI6] ≠ []) ∧
    calculateMultiPointRoute .driving (some locHome) [wpE6, wpI6] geoNone tripC1
      segNone = .failure "Destination \"Y\" not found" :=
  ⟨by simp [availableOf, wpE6, wpI6, jsTrim],
    claim_C6.2.1 .driving locHome [wpE6, wpI6] geoNone tripC1 segNone
      "Destination \"Y\" not found"
      (by simp [availableOf, wpE6, wpI6, jsTrim]) rfl⟩

/-- C7: in the fallback stitching loop, a failed per-leg segment request
substitutes the leg's end point as a single-point placeholder (drawing a
straight line from the path tail), accrues the leg's haversine distance,
accrues that distance divided by the fixed 13 m/s fallback speed as
duration, and continues with the remaining legs; consequently a route whose
every leg fails totals exactly the consecutive haversine distances and that
total divided by 13. -/
theorem claim_C7 :
    (∀ (seg : Point → Point → Option SegRoute) (prev : Point) (l : Leg)
       (rest : List Leg) (cs : List (ℝ × ℝ)) (d t : ℝ),
       seg prev l.coords = none →
       stitchLegs seg prev (l :: rest) (cs, d, t) =
         stitchLegs seg l.coords rest (cs ++ [(l.coords.2, l.coords.1)],
           d + haversine prev l.coords, t + haversine prev l.coords / 13)) ∧
    ∀ (legs : List Leg) (prev : Point),
      stitchLegs failSeg prev legs ([], 0, 0) =
        (legs.map (fun l => (l.coords.2, l.coords.1)), pathHav prev legs,
          pathHav prev legs / 13) :=
  ⟨stitchLegs_fail_step, fun legs prev => by
    simpa using stitchLegs_allFail legs prev [] 0 0⟩

/-- C7 witness: the failing-leg step equation applied to a concrete leg with
the always-failing segment oracle. -/
theorem claim_C7_witness :
    failSeg ((0 : ℝ), (0 : ℝ)) legS1.coords = none ∧
    stitchLegs failSeg ((0 : ℝ), (0 : ℝ)) [legS1] ([], 0, 0) =
      stitchLegs failSeg legS1.coords []
        ([] ++ [(legS1.coords.2, legS1.coords.1)],
          0 + haversine ((0 : ℝ), (0 : ℝ)) legS1.coords,
          0 + haversine ((0 : ℝ), (0 : ℝ)) legS1.coords / 13) :=
  ⟨rfl, claim_C7.1 failSeg ((0 : ℝ), (0 : ℝ)) legS1 [] [] 0 0 rfl⟩

/-- C8 counterexample: on the claim's own example — start `(0,0)`, stops
`A = (0,1)` and `B = (0,2)`, no end flag — Greedy-Cheapest-Insertion does
NOT return `[A, B]`: both orders of the closed loop have equal total length,
and the strict-minimum scan keeps the earliest insertion position, yielding
`[B, A]`. -/
theorem claim_C8_counterexample :
    calculateGreedyInsertionOrder ((0 : ℝ), (0 : ℝ)) [legA1, legB1] none ≠
      [legA1, legB1] := by
  rw [greedy_ex1]
  intro h
  have h2 := congrArg (fun l : List Leg => (l.headD dummyLeg).coords.2) h
  norm_num [legA1, legB1] at h2

/-- C8 (amended): Greedy-Cheapest-Insertion seeds a `[start, end]` skeleton
(or a `[start, start]` closed loop without an end), repeatedly inserts the
(candidate, position) pair of minimal extra distance
`dist(prev, c) + dist(c, next) − dist(prev, next)`, breaking ties by lowest
candidate index then lowest insertion position, until the pool is empty,
then strips the synthetic placeholders.  On the example start `(0,0)`,
stops `[A = (0,1), B = (0,2)]`, no end flag, it returns `[B, A]` (not
`[A, B]` as the original claim stated). -/
theorem claim_C8 :
    (∀ (route cands : List Leg) (i pos : ℕ) (v : ℝ),
       bestTriple route cands = some ((i, pos), v) →
       i < cands.length ∧ 1 ≤ pos ∧ pos < route.length ∧
       v = insertionCost route (cands.getD i dummyLeg) pos ∧
       (∀ j q, j < cands.length → 1 ≤ q → q < route.length →
         v ≤ insertionCost route (cands.getD j dummyLeg) q) ∧
       ∀ j q, j < cands.length → 1 ≤ q → q < route.length →
         insertionCost route (cands.getD j dummyLeg) q = v →
         i < j ∨ (i = j ∧ pos ≤ q)) ∧
    (∀ (n : ℕ) (cands route : List Leg) (i pos : ℕ) (v : ℝ),
       bestTriple route cands = some ((i, pos), v) →
       greedyLoop (n + 1) cands route =
         greedyLoop n (cands.eraseIdx i)
           (route.insertIdx pos (cands.getD i dummyLeg))) ∧
    (∀ (start : Point) (ws : List Leg), ws.isEmpty = false →
       calculateGreedyInsertionOrder start ws none =
         stripDummies (greedyLoop ws.length ws [⟨start, none⟩, ⟨start, none⟩])) ∧
    (∀ (d0 e : Leg) (mid : List Leg), d0.waypoint = none → e.waypoint = none →
       stripDummies (d0 :: mid ++ [e]) = mid) ∧
    (∀ (d0 e : Leg) (mid : List Leg), d0.waypoint = none → e.waypoint.isSome →
       stripDummies (d0 :: mid ++ [e]) = mid ++ [e]) ∧
    calculateGreedyInsertionOrder ((0 : ℝ), (0 : ℝ)) [legA1, legB1] none =
      [legB1, legA1] := by
  refine ⟨?_, ?_, ?_, stripDummies_both, stripDummies_endpoint, greedy_ex1⟩
  · intro route cands i pos v h
    exact bestTriple_spec h
  · intro n cands route i pos v h
    simp only [greedyLoop, h]
  · intro start ws h
    unfold calculateGreedyInsertionOrder
    rw [if_neg (by simp [h])]

/-- C8 witness: the selection characterization applied to the first
iteration of the worked example. -/
theorem claim_C8_witness :
    (bestTriple [⟨((0 : ℝ), (0 : ℝ)), none⟩, ⟨((0 : ℝ), (0 : ℝ)), none⟩]
        [legA1, legB1] = some ((0, 1), 2 * unitDist)) ∧
    (0 < ([legA1, legB1] : List Leg).length ∧ 1 ≤ 1 ∧
      1 < ([⟨((0 : ℝ), (0 : ℝ)), none⟩, ⟨((0 : ℝ), (0 : ℝ)), none⟩] : List Leg).length ∧
      2 * unitDist = insertionCost
        [⟨((0 : ℝ), (0 : ℝ)), none⟩, ⟨((0 : ℝ), (0 : ℝ)), none⟩]
        (([legA1, legB1] : List Leg).getD 0 dummyLeg) 1 ∧
      (∀ j q, j < ([legA1, legB1] : List Leg).length → 1 ≤ q →
        q < ([⟨((0 : ℝ), (0 : ℝ)), none⟩, ⟨((0 : ℝ), (0 : ℝ)), none⟩] : List Leg).length →
        2 * unitDist ≤ insertionCost
          [⟨((0 : ℝ), (0 : ℝ)), none⟩, ⟨((0 : ℝ), (0 : ℝ)), none⟩]
          (([legA1, legB1] : List Leg).getD j dummyLeg) q) ∧
      ∀ j q, j < ([legA1, legB1] : List Leg).length → 1 ≤ q →
        q < ([⟨((0 : ℝ), (0 : ℝ)), none⟩, ⟨((0 : ℝ), (0 : ℝ)), none⟩] : List Leg).length →
        insertionCost [⟨((0 : ℝ), (0 : ℝ)), none⟩, ⟨((0 : ℝ), (0 : ℝ)), none⟩]
          (([legA1, legB1] : List Leg).getD j dummyLeg) q = 2 * unitDist →
        0 < j ∨ (0 = j ∧ 1 ≤ q)) :=
  ⟨bt_ex1_step1, claim_C8.1 _ _ 0 1 (2 * unitDist) bt_ex1_step1⟩

/-- C9: Nearest-Neighbor repeatedly appends the remaining leg closest by
haversine distance to the current path tail, ties broken in favor of the
first leg in input order (the selection returns the least index attaining
the minimum); a designated end leg is pulled out up front and appended only
after all others; on the example start `(0,0)`, stops
`[A = (0,2), B = (0,1)]`, no end flag, the order is `[B, A]`. -/
theorem claim_C9 :
    (∀ (cur : Point) (l : List Leg) (i : ℕ) (x : Leg),
       nnSelect cur l = some (i, x) →
       l.get? i = some x ∧
       (∀ j y, l.get? j = some y →
         haversine cur x.coords ≤ haversine cur y.coords) ∧
       ∀ j y, j < i → l.get? j = some y →
         haversine cur x.coords < haversine cur y.coords) ∧
    (∀ (n : ℕ) (cur : Point) (remaining : List Leg) (i : ℕ) (x : Leg),
       nnSelect cur remaining = some (i, x) →
       nnLoop (n + 1) cur remaining =
         x :: nnLoop n x.coords (remaining.eraseIdx i)) ∧
    (∀ (start : Point) (ws : List Leg) (e : Point),
       ws.findIdx (fun wp => decide (wp.coords = e)) < ws.length →
       calculateNearestNeighborOrder start ws (some e) =
         calculateNearestNeighborOrder start
           (ws.eraseIdx (ws.findIdx fun wp => decide (wp.coords = e))) none ++
         [ws.getD (ws.findIdx fun wp => decide (wp.coords = e)) dummyLeg]) ∧
    calculateNearestNeighborOrder ((0 : ℝ), (0 : ℝ)) [legA2, legB2] none =
      [legB2, legA2] := by
  refine ⟨?_, ?_, nn_endpoint, nn_ex2⟩
  · intro cur l i x h
    exact nnSelect_spec h
  · intro n cur remaining i x h
    simp only [nnLoop, h]

/-- C9 witness: the selection characterization applied to the first step of
the worked example (B, at index 1, is strictly closer to the start than A at
index 0). -/
theorem claim_C9_witness :
    nnSelect ((0 : ℝ), (0 : ℝ)) [legA2, legB2] = some (1, legB2) ∧
    (([legA2, legB2] : List Leg).get? 1 = some legB2 ∧
      (∀ j y, ([legA2, legB2] : List Leg).get? j = some y →
        haversine ((0 : ℝ), (0 : ℝ)) legB2.coords ≤
          haversine ((0 : ℝ), (0 : ℝ)) y.coords) ∧
      ∀ j y, j < 1 → ([legA2, legB2] : List Leg).get? j = some y →
        haversine ((0 : ℝ), (0 : ℝ)) legB2.coords <
          haversine ((0 : ℝ), (0 : ℝ)) y.coords) :=
  ⟨nnSelect_ex2, claim_C9.1 ((0 : ℝ), (0 : ℝ)) [legA2, legB2] 1 legB2 nnSelect_ex2⟩

/-- C10 counterexample: leg 1's path ends at `(1,1)`, leg 2's path is
`[(5,5), (2,2)]` whose first point differs from `(1,1)`; yet the stitched
path is `[(0,0), (1,1), (2,2)]` — the point `(5,5)` was dropped even though
it does not equal the previous leg's last point, so the drop is not
conditioned on equality and geometry is lost. -/
theorem claim_C10_counterexample :
    stitchLegs segC10 ((0 : ℝ), (0 : ℝ)) [legS1, legS2] ([], 0, 0) =
      ([(0, 0), (1, 1), (2, 2)], 2, 2) ∧
    segC10 legS1.coords legS2.coords = some ⟨[(5, 5), (2, 2)], 1, 1⟩ ∧
    ((5 : ℝ), (5 : ℝ)) ≠ ((1 : ℝ), (1 : ℝ)) :=
  ⟨stitch_C10_eval, segC10_second, by
    intro h
    rw [Prod.mk.injEq] at h
    exact absurd h.1 (by norm_num)⟩

/-- C10 (amended): when stitching per-leg paths, a successful leg's first
point is dropped exactly when the accumulated path is nonempty AND the
leg's geometry has more than one point — regardless of whether that first
point equals the previous leg's last point; otherwise the whole leg
geometry is appended. -/
theorem claim_C10 :
    (∀ (seg : Point → Point → Option SegRoute) (prev : Point) (l : Leg)
       (rest : List Leg) (cs : List (ℝ × ℝ)) (d t : ℝ) (r : SegRoute),
       seg prev l.coords = some r → cs.length > 0 → r.geometry.length > 1 →
       stitchLegs seg prev (l :: rest) (cs, d, t) =
         stitchLegs seg l.coords rest
           (cs ++ r.geometry.drop 1, d + r.distance, t + r.duration)) ∧
    ∀ (seg : Point → Point → Option SegRoute) (prev : Point) (l : Leg)
      (rest : List Leg) (cs : List (ℝ × ℝ)) (d t : ℝ) (r : SegRoute),
      seg prev l.coords = some r → ¬ (cs.length > 0 ∧ r.geometry.length > 1) →
      stitchLegs seg prev (l :: rest) (cs, d, t) =
        stitchLegs seg l.coords rest
          (cs ++ r.geometry, d + r.distance, t + r.duration) := by
  constructor
  · intro seg prev l rest cs d t r h h1 h2
    rw [stitchLegs_ok_step seg prev l rest cs d t r h, if_pos ⟨h1, h2⟩]
  · intro seg prev l rest cs d t r h hnot
    rw [stitchLegs_ok_step seg prev l rest cs d t r h, if_neg hnot]

/-- C10 witness: the drop case applied to the concrete second leg of the
counterexample input. -/
theorem claim_C10_witness :
    (segC10 legS1.coords legS2.coords = some ⟨[(5, 5), (2, 2)], 1, 1⟩ ∧
      ([((0 : ℝ), (0 : ℝ)), ((1 : ℝ), (1 : ℝ))] : List (ℝ × ℝ)).length > 0 ∧
      ([((5 : ℝ), (5 : ℝ)), ((2 : ℝ), (2 : ℝ))] : List (ℝ × ℝ)).length > 1) ∧
    stitchLegs segC10 legS1.coords [legS2] ([((0 : ℝ), (0 : ℝ)), ((1 : ℝ), (1 : ℝ))], 1, 1) =
      stitchLegs segC10 legS2.coords []
        ([((0 : ℝ), (0 : ℝ)), ((1 : ℝ), (1 : ℝ))] ++
            ([((5 : ℝ), (5 : ℝ)), ((2 : ℝ), (2 : ℝ))] : List (ℝ × ℝ)).drop 1,
          1 + 1, 1 + 1) :=
  ⟨⟨segC10_second, by norm_num, by norm_num⟩,
    claim_C10.1 segC10 legS1.coords legS2 [] [((0 : ℝ), (0 : ℝ)), ((1 : ℝ), (1 : ℝ))]
      1 1 ⟨[(5, 5), (2, 2)], 1, 1⟩ segC10_second (by norm_num) (by norm_num)⟩

end OptiRoute
